import Mathlib

/-!
Verification development for the DXF drawing parser (`src/loaders/DXFLoader.js`)
and the sheet-metal analysis engine (`src/app.js`) of the repository.

Numbers are modelled exactly: JavaScript floats are embedded as rationals
(`ℚ`) where the code only performs field operations and comparisons, and as
reals (`ℝ`) where the code calls `Math.sqrt` / trigonometric functions.
`NaN`/`Infinity` results of `parseFloat` are modelled with `Option` (the code
always guards such values with `Number.isFinite` before use).  JavaScript
string primitives (`trim`, `split`, `toUpperCase`, `replace` of line
endings) are given executable character-list implementations.
-/

/-- JavaScript `Math.round`: round half towards positive infinity.
`Math.round(x) = Math.floor(x + 0.5)` for every finite `x`. -/
def jsRound {α : Type*} [LinearOrderedField α] [FloorRing α] (x : α) : ℤ :=
  ⌊x + (1 : α) / 2⌋

/-- JavaScript `String.prototype.trim`: strip whitespace from both ends. -/
def jsTrim (s : String) : String :=
  ⟨((s.data.dropWhile (fun c => c.isWhitespace)).reverse.dropWhile
      (fun c => c.isWhitespace)).reverse⟩

/-- JavaScript `String.prototype.toUpperCase` (ASCII range, which is all the
sources compare against). -/
def jsToUpper (s : String) : String :=
  ⟨s.data.map Char.toUpper⟩

/-- Numeric value of a decimal digit character. -/
def digitVal (c : Char) : ℕ := c.toNat - 48

/-- Accumulate a list of decimal digit characters into a natural number
(most significant first), as the usual left-to-right scan does. -/
def digitsToNat (ds : List Char) : ℕ :=
  ds.foldl (fun a c => 10 * a + digitVal c) 0

/-- JavaScript `parseInt(s, 10)`: skip leading whitespace, read an optional
sign, then the longest prefix of decimal digits; `NaN` (here `none`) if that
prefix is empty. -/
def jsParseInt (s : String) : Option ℤ :=
  let cs := s.data.dropWhile (fun c => c.isWhitespace)
  let signAndRest : ℤ × List Char :=
    match cs with
    | '-' :: t => (-1, t)
    | '+' :: t => (1, t)
    | _ => (1, cs)
  let ds := signAndRest.2.takeWhile (fun c => c.isDigit)
  if ds.isEmpty then none
  else some (signAndRest.1 * (digitsToNat ds : ℤ))

/-- Exponent part of a JavaScript float literal: `e`/`E`, optional sign,
digits.  Returns the exponent to apply, or `0` when the tail is not a valid
exponent (JS `parseFloat` stops before an ill-formed exponent). -/
def jsFloatExponent (cs : List Char) : ℤ :=
  match cs with
  | 'e' :: t | 'E' :: t =>
    let signAndRest : ℤ × List Char :=
      match t with
      | '-' :: t2 => (-1, t2)
      | '+' :: t2 => (1, t2)
      | _ => (1, t)
    let ds := signAndRest.2.takeWhile (fun c => c.isDigit)
    if ds.isEmpty then 0 else signAndRest.1 * (digitsToNat ds : ℤ)
  | _ => 0

/-- JavaScript `parseFloat`: skip leading whitespace, optional sign, integer
digits, optional fraction, optional exponent.  `none` models a non-finite
result (`NaN`, or the literal `Infinity`, which every caller in the sources
immediately replaces by a fallback via `Number.isFinite`). -/
def jsParseFloat (s : String) : Option ℚ :=
  let cs := s.data.dropWhile (fun c => c.isWhitespace)
  let signAndRest : ℚ × List Char :=
    match cs with
    | '-' :: t => (-1, t)
    | '+' :: t => (1, t)
    | _ => (1, cs)
  let intDs := signAndRest.2.takeWhile (fun c => c.isDigit)
  let afterInt := signAndRest.2.drop intDs.length
  let fracAndRest : List Char × List Char :=
    match afterInt with
    | '.' :: t => (t.takeWhile (fun c => c.isDigit),
        t.drop (t.takeWhile (fun c => c.isDigit)).length)
    | _ => ([], afterInt)
  if intDs.isEmpty ∧ fracAndRest.1.isEmpty then none
  else
    let mantissa : ℚ :=
      (digitsToNat intDs : ℚ) +
        (digitsToNat fracAndRest.1 : ℚ) / (10 : ℚ) ^ fracAndRest.1.length
    let e : ℤ := jsFloatExponent fracAndRest.2
    some (signAndRest.1 * mantissa * (10 : ℚ) ^ e)

/-! ### TagPairScanner (`parsePairs`, DXFLoader.js lines 18–44) -/

/-- One scanned tag pair: an integer group code and the verbatim value line. -/
structure DxfPair where
  code : ℤ
  value : String
  deriving Repr, DecidableEq

/-- Line-ending normalization of `parsePairs`:
`text.replace(/\r\n/g, '\n').replace(/\r/g, '\n')`, fused into one pass
(the first replacement never creates a new `\r\n` occurrence, so the
composition of the two global replacements equals this single scan). -/
def normalizeNewlineChars : List Char → List Char
  | [] => []
  | '\r' :: '\n' :: t => '\n' :: normalizeNewlineChars t
  | '\r' :: t => '\n' :: normalizeNewlineChars t
  | c :: t => c :: normalizeNewlineChars t

/-- `split('\n')` on a character list; like JS `split`, an empty input gives
one empty field and a trailing separator gives a trailing empty field. -/
def splitNewlines : List Char → List (List Char)
  | [] => [[]]
  | '\n' :: t => [] :: splitNewlines t
  | c :: t =>
    match splitNewlines t with
    | [] => [[c]]
    | h :: r => (c :: h) :: r

/-- `normalized.split('\n')` as strings. -/
def jsLines (text : String) : List String :=
  (splitNewlines (normalizeNewlineChars text.data)).map (fun cs => ⟨cs⟩)

/-- The scanning loop of `parsePairs` over the list of lines.  A code line
that is empty after trimming is skipped without consuming a value line; a
code line with no following line stops the scan; a code line that fails
`parseInt` drops the pair (both lines) and continues. -/
def pairsLoop : List String → List DxfPair
  | [] => []
  | codeLine :: rest =>
    if jsTrim codeLine = "" then pairsLoop rest
    else
      match rest with
      | [] => []
      | valueLine :: rest2 =>
        match jsParseInt (jsTrim codeLine) with
        | none => pairsLoop rest2
        | some code => ⟨code, valueLine⟩ :: pairsLoop rest2

/-- `parsePairs` (DXFLoader.js line 18). -/
def parsePairs (text : String) : List DxfPair :=
  pairsLoop (jsLines text)

theorem pairsLoop_nil : pairsLoop [] = [] := rfl

theorem pairsLoop_blank (c : String) (rest : List String) (h : jsTrim c = "") :
    pairsLoop (c :: rest) = pairsLoop rest := by
  rw [pairsLoop.eq_def]; simp [h]

theorem pairsLoop_stop (c : String) (h : jsTrim c ≠ "") :
    pairsLoop [c] = [] := by
  rw [pairsLoop.eq_def]; simp [h]

theorem pairsLoop_drop (c v : String) (rest : List String) (h : jsTrim c ≠ "")
    (hp : jsParseInt (jsTrim c) = none) :
    pairsLoop (c :: v :: rest) = pairsLoop rest := by
  rw [pairsLoop.eq_def]; simp [h, hp]

theorem pairsLoop_emit (c v : String) (rest : List String) (k : ℤ)
    (h : jsTrim c ≠ "") (hp : jsParseInt (jsTrim c) = some k) :
    pairsLoop (c :: v :: rest) = ⟨k, v⟩ :: pairsLoop rest := by
  rw [pairsLoop.eq_def]; simp [h, hp]

/-- Every pair emitted by the scanning loop takes its code from some line
(integer-parsed after trimming) and its value verbatim from the following
line. -/
theorem pairsLoop_sound : ∀ (lines : List String), ∀ p ∈ pairsLoop lines,
    ∃ i : ℕ,
      (∃ c, lines.get? i = some c ∧ jsTrim c ≠ "" ∧
          jsParseInt (jsTrim c) = some p.code) ∧
      lines.get? (i + 1) = some p.value
  | [] => by intro p hp; simp [pairsLoop] at hp
  | c :: rest => by
    intro p hp
    by_cases h : jsTrim c = ""
    · rw [pairsLoop_blank c rest h] at hp
      obtain ⟨i, ⟨c2, hc2, hne, hcode⟩, hv⟩ := pairsLoop_sound rest p hp
      exact ⟨i + 1, ⟨c2, by simpa using hc2, hne, hcode⟩, by simpa using hv⟩
    · match rest with
      | [] =>
        rw [pairsLoop_stop c h] at hp
        simp at hp
      | v :: rest2 =>
        cases hpi : jsParseInt (jsTrim c) with
        | none =>
          rw [pairsLoop_drop c v rest2 h hpi] at hp
          obtain ⟨i, ⟨c2, hc2, hne, hcode⟩, hv⟩ := pairsLoop_sound rest2 p hp
          exact ⟨i + 2, ⟨c2, by simpa using hc2, hne, hcode⟩, by simpa using hv⟩
        | some k =>
          rw [pairsLoop_emit c v rest2 k h hpi] at hp
          rcases List.mem_cons.mp hp with hph | hpt
          · exact ⟨0, ⟨c, by simp, h, by simp [hph, hpi]⟩, by simp [hph]⟩
          · obtain ⟨i, ⟨c2, hc2, hne, hcode⟩, hv⟩ := pairsLoop_sound rest2 p hpt
            exact ⟨i + 2, ⟨c2, by simpa using hc2, hne, hcode⟩, by simpa using hv⟩

/-- C9: the tag-pair scanner skips an empty (after trimming) code line
without consuming the following line, silently drops both lines of a pair
whose code does not parse as an integer, stops when a code line has no
following value line, and every emitted pair carries an integer code with
the verbatim following line as its value. -/
theorem C9_tag_pair_scanner :
    (∀ (c : String) (rest : List String), jsTrim c = "" →
      pairsLoop (c :: rest) = pairsLoop rest) ∧
    (∀ (c v : String) (rest : List String), jsTrim c ≠ "" →
      jsParseInt (jsTrim c) = none →
      pairsLoop (c :: v :: rest) = pairsLoop rest) ∧
    (∀ c : String, jsTrim c ≠ "" → pairsLoop [c] = []) ∧
    (∀ (c v : String) (rest : List String) (k : ℤ), jsTrim c ≠ "" →
      jsParseInt (jsTrim c) = some k →
      pairsLoop (c :: v :: rest) = ⟨k, v⟩ :: pairsLoop rest) ∧
    (∀ (text : String), ∀ p ∈ parsePairs text, ∃ i : ℕ,
      (∃ c, (jsLines text).get? i = some c ∧ jsTrim c ≠ "" ∧
        jsParseInt (jsTrim c) = some p.code) ∧
      (jsLines text).get? (i + 1) = some p.value) := by
  refine ⟨pairsLoop_blank, pairsLoop_drop, pairsLoop_stop, ?_, ?_⟩
  · intro c v rest k h hk; exact pairsLoop_emit c v rest k h hk
  · intro text p hp; exact pairsLoop_sound (jsLines text) p hp

/-- Witness for C9 at concrete inputs: a blank code line is skipped, a
non-integer code drops its pair, a trailing code line emits nothing, a good
pair is emitted, and the pair scanned from `"0\nSECTION"` indeed points back
at its two source lines. -/
theorem C9_tag_pair_scanner_witness :
    ((jsTrim "  " = "") ∧ pairsLoop ["  ", "5", "X"] = pairsLoop ["5", "X"]) ∧
    ((jsTrim "abc" ≠ "" ∧ jsParseInt (jsTrim "abc") = none) ∧
      pairsLoop ["abc", "junk", "5", "X"] = pairsLoop ["5", "X"]) ∧
    ((jsTrim "7" ≠ "") ∧ pairsLoop ["7"] = []) ∧
    ((jsTrim "0" ≠ "" ∧ jsParseInt (jsTrim "0") = some 0) ∧
      pairsLoop ["0", "SECTION", "5", "X"] =
        ⟨0, "SECTION"⟩ :: pairsLoop ["5", "X"]) ∧
    (∀ p ∈ parsePairs "0\nSECTION", ∃ i : ℕ,
      (∃ c, (jsLines "0\nSECTION").get? i = some c ∧ jsTrim c ≠ "" ∧
        jsParseInt (jsTrim c) = some p.code) ∧
      (jsLines "0\nSECTION").get? (i + 1) = some p.value) :=
  ⟨⟨by decide, C9_tag_pair_scanner.1 "  " ["5", "X"] (by decide)⟩,
   ⟨⟨by decide, by decide⟩,
     C9_tag_pair_scanner.2.1 "abc" "junk" ["5", "X"] (by decide) (by decide)⟩,
   ⟨by decide, C9_tag_pair_scanner.2.2.1 "7" (by decide)⟩,
   ⟨⟨by decide, by decide⟩,
     C9_tag_pair_scanner.2.2.2.1 "0" "SECTION" ["5", "X"] 0 (by decide) (by decide)⟩,
   C9_tag_pair_scanner.2.2.2.2 "0\nSECTION"⟩

/-! ### Entity field tables (`_collectEntityData`'s map) and field getters -/

/-- An entity's field table: group code → ordered list of value strings,
insertion order preserved (JS `Map` of arrays). -/
abbrev EntityData : Type := List (ℤ × List String)

/-- `data.get(code)` on the field table. -/
def dataGet (data : EntityData) (code : ℤ) : Option (List String) :=
  (List.find? (fun e => e.1 == code) data).map Prod.snd

/-- One step of `_collectEntityData`'s body:
`if (!data.has(code)) data.set(code, []); data.get(code).push(value)`. -/
def dataAdd (data : EntityData) (code : ℤ) (v : String) : EntityData :=
  if (List.find? (fun e => e.1 == code) data).isSome then
    data.map (fun e => if e.1 == code then (e.1, e.2 ++ [v]) else e)
  else data ++ [(code, [v])]

/-- `getNumber` (DXFLoader.js line 46) without its fallback: `some` exactly
when the slot exists and parses to a finite float. -/
def getNumberOpt (data : EntityData) (code : ℤ) (idx : ℕ) : Option ℚ :=
  match dataGet data code with
  | none => none
  | some arr =>
    match arr.get? idx with
    | none => none
    | some s => jsParseFloat s

/-- `getNumber(list, code, index, fallback)`. -/
def getNumber (data : EntityData) (code : ℤ) (idx : ℕ) (fallback : ℚ) : ℚ :=
  (getNumberOpt data code idx).getD fallback

/-- `getInteger(list, code, index, null)` (DXFLoader.js line 55): `none` is
the `null` fallback, covering both a missing slot and a `NaN` parse. -/
def getIntegerOpt (data : EntityData) (code : ℤ) (idx : ℕ) : Option ℤ :=
  match dataGet data code with
  | none => none
  | some arr =>
    match arr.get? idx with
    | none => none
    | some s => jsParseInt s

/-- `getString(list, code, index, null)` (DXFLoader.js line 64). -/
def getStringOpt (data : EntityData) (code : ℤ) (idx : ℕ) : Option String :=
  match dataGet data code with
  | none => none
  | some arr =>
    match arr.get? idx with
    | none => none
    | some s => some (jsTrim s)

/-! ### ColorResolver (`_aciToHex`, `_resolveColor`, DXFLoader.js 564–598) -/

/-- `DEFAULT_COLOR` (DXFLoader.js line 3). -/
def DEFAULT_COLOR : ℤ := 0x3f83f8

/-- `ACI_COLOR_MAP` (DXFLoader.js lines 6–16). -/
def ACI_COLOR_MAP : List (ℤ × ℤ) :=
  [(1, 0xff0000), (2, 0xffff00), (3, 0x00ff00), (4, 0x00ffff),
   (5, 0x0000ff), (6, 0xff00ff), (7, 0xffffff), (8, 0x808080), (9, 0xc0c0c0)]

/-- `_aciToHex` (DXFLoader.js line 583).  The `Number.isInteger` guard is
vacuous for `ℤ` arguments; index `0` and the by-layer sentinel `256` map to
`null`; indices 1–9 use the fixed table; 250–255 use the grayscale ramp
(`(gray << 16) | (gray << 8) | gray` over disjoint byte lanes). -/
def aciToHex (aci : ℤ) : Option ℤ :=
  if aci = 0 ∨ aci = 256 then none
  else
    match List.find? (fun e => e.1 == aci) ACI_COLOR_MAP with
    | some e => some e.2
    | none =>
      if 250 ≤ aci ∧ aci ≤ 255 then
        let gray : ℕ := (jsRound ((((aci : ℚ) - 250) / 5) * 255)).toNat
        some ((gray <<< 16) ||| (gray <<< 8) ||| gray : ℕ)
      else none

/-- The layer table built while parsing `TABLES`→`LAYER`: name → color,
insertion ordered (JS `Map`). -/
abbrev LayerMap : Type := List (String × ℤ)

/-- `state.layers.get(name)` (with `has` folded in). -/
def layersGet (layers : LayerMap) (name : String) : Option ℤ :=
  (List.find? (fun e => e.1 == name) layers).map Prod.snd

/-- `state.layers.set(name, color)`. -/
def layersSet (layers : LayerMap) (name : String) (color : ℤ) : LayerMap :=
  if (List.find? (fun e => e.1 == name) layers).isSome then
    layers.map (fun e => if e.1 == name then (e.1, color) else e)
  else layers ++ [(name, color)]

/-- The layer fallback tail of `_resolveColor` (DXFLoader.js lines 576–580):
`if (layer && state.layers.has(layer)) return state.layers.get(layer);
return this.options.defaultColor;` — note the JS truthiness test `layer &&`
rejects the empty string. -/
def resolveLayerColor (data : EntityData) (layers : LayerMap)
    (defaultColor : ℤ) : ℤ :=
  match getStringOpt data 8 0 with
  | some layer =>
    if layer ≠ "" ∧ (layersGet layers layer).isSome then
      (layersGet layers layer).getD defaultColor
    else defaultColor
  | none => defaultColor

/-- `_resolveColor` (DXFLoader.js line 564). -/
def resolveColor (data : EntityData) (layers : LayerMap)
    (defaultColor : ℤ) : ℤ :=
  match getIntegerOpt data 420 0 with
  | some trueColor => trueColor
  | none =>
    match getIntegerOpt data 62 0 with
    | some aci =>
      match aciToHex aci with
      | some mapped => mapped
      | none => resolveLayerColor data layers defaultColor
    | none => resolveLayerColor data layers defaultColor

/-- The resolved display color as the specification words it: the true-color
field if present; otherwise the indexed-color field when it maps to a
concrete color; otherwise the stored color of the matching parsed layer;
otherwise the global default. -/
def specResolvedColor (data : EntityData) (layers : LayerMap)
    (defaultColor : ℤ) : ℤ :=
  match getIntegerOpt data 420 0 with
  | some trueColor => trueColor
  | none =>
    match (getIntegerOpt data 62 0).bind aciToHex with
    | some mapped => mapped
    | none =>
      match getStringOpt data 8 0 with
      | some name =>
        match layersGet layers name with
        | some c => c
        | none => defaultColor
      | none => defaultColor

/-- C3: the resolved display color follows the precedence chain
true color ≻ mapped indexed color ≻ stored layer color ≻ global default,
and the indexed values `0` and `256` never map to a concrete color.  The
hypothesis says the layer map has no empty-named layer, which holds for
every layer map the parser builds (`_parseLayerTable` only stores truthy
names). -/
theorem C3_color_precedence :
    aciToHex 0 = none ∧ aciToHex 256 = none ∧
    ∀ (data : EntityData) (layers : LayerMap) (defaultColor : ℤ),
      layersGet layers "" = none →
      resolveColor data layers defaultColor =
        specResolvedColor data layers defaultColor := by
  refine ⟨rfl, rfl, ?_⟩
  intro data layers defaultColor hempty
  have hlayer : resolveLayerColor data layers defaultColor =
      (match getStringOpt data 8 0 with
       | some name =>
         match layersGet layers name with
         | some c => c
         | none => defaultColor
       | none => defaultColor) := by
    unfold resolveLayerColor
    cases hs : getStringOpt data 8 0 with
    | none => rfl
    | some name =>
      by_cases hn : name = ""
      · subst hn; simp [hempty]
      · cases hg : layersGet layers name with
        | none => simp [hn, hg]
        | some c => simp [hn, hg]
  unfold resolveColor specResolvedColor
  cases h420 : getIntegerOpt data 420 0 with
  | some t => simp
  | none =>
    cases h62 : getIntegerOpt data 62 0 with
    | none => simpa using hlayer
    | some aci =>
      cases hmap : aciToHex aci with
      | none => simpa [hmap] using hlayer
      | some m => simp [hmap]

/-- Witness for C3: a concrete layer map with no empty-named layer, plus the
three concrete precedence checks the specification lists (both fields set →
true color wins; neither set → the layer's color; no layer match → the
global default). -/
theorem C3_color_precedence_witness :
    (layersGet [("STEEL", 0xff0000)] "" = none ∧
      resolveColor [(420, ["1193046"]), (62, ["1"]), (8, ["STEEL"])]
          [("STEEL", 0xff0000)] DEFAULT_COLOR =
        specResolvedColor [(420, ["1193046"]), (62, ["1"]), (8, ["STEEL"])]
          [("STEEL", 0xff0000)] DEFAULT_COLOR) ∧
    resolveColor [(420, ["1193046"]), (62, ["1"]), (8, ["STEEL"])]
        [("STEEL", 0xff0000)] DEFAULT_COLOR = 1193046 ∧
    resolveColor [(8, ["STEEL"])] [("STEEL", 0xff0000)] DEFAULT_COLOR =
      0xff0000 ∧
    resolveColor [(8, ["BRASS"])] [("STEEL", 0xff0000)] DEFAULT_COLOR =
      DEFAULT_COLOR :=
  ⟨⟨by decide,
    C3_color_precedence.2.2 [(420, ["1193046"]), (62, ["1"]), (8, ["STEEL"])]
      [("STEEL", 0xff0000)] DEFAULT_COLOR (by decide)⟩,
   by decide, by decide, by decide⟩

/-! ### Geometry primitives (THREE.Vector3 / Vector2 operations used) -/

/-- A 3-component vector (`THREE.Vector3`) with exact real coordinates. -/
structure Vec3 where
  x : ℝ
  y : ℝ
  z : ℝ

theorem Vec3.ext_iff2 (a b : Vec3) : a = b ↔ a.x = b.x ∧ a.y = b.y ∧ a.z = b.z := by
  constructor
  · rintro rfl; exact ⟨rfl, rfl, rfl⟩
  · rintro ⟨h1, h2, h3⟩; cases a; cases b; simp_all

/-- Squared distance (`Vector3.distanceToSquared`). -/
noncomputable def distSq3 (a b : Vec3) : ℝ :=
  (a.x - b.x) ^ 2 + (a.y - b.y) ^ 2 + (a.z - b.z) ^ 2

/-- Distance (`Vector3.distanceTo`). -/
noncomputable def dist3 (a b : Vec3) : ℝ := Real.sqrt (distSq3 a b)

noncomputable def sub3 (a b : Vec3) : Vec3 := ⟨a.x - b.x, a.y - b.y, a.z - b.z⟩

noncomputable def cross3 (a b : Vec3) : Vec3 :=
  ⟨a.y * b.z - a.z * b.y, a.z * b.x - a.x * b.z, a.x * b.y - a.y * b.x⟩

noncomputable def norm3 (a : Vec3) : ℝ :=
  Real.sqrt (a.x ^ 2 + a.y ^ 2 + a.z ^ 2)

noncomputable def dot3 (a b : Vec3) : ℝ := a.x * b.x + a.y * b.y + a.z * b.z

/-- `THREE.MathUtils.degToRad`. -/
noncomputable def degToRad (d : ℝ) : ℝ := d * Real.pi / 180

/-- `THREE.MathUtils.radToDeg`. -/
noncomputable def radToDeg (r : ℝ) : ℝ := r * 180 / Real.pi

/-- `THREE.MathUtils.clamp(value, lo, hi) = Math.max(lo, Math.min(hi, value))`. -/
noncomputable def jsClamp (value lo hi : ℝ) : ℝ := max lo (min hi value)

/-- `Math.atan2(y, x)`, embedded as the argument of the complex number
`x + y·i` (both have range `(-π, π]` and agree at every point the sources
evaluate). -/
noncomputable def jsAtan2 (y x : ℝ) : ℝ := Complex.arg ⟨x, y⟩

/-- Perpendicular distance of `p` from the chord (the line through `a` and
`b`), by the standard cross-product formula — the "perpendicular deviation
from the chord" of the specification. -/
noncomputable def chordDeviation (a b p : Vec3) : ℝ :=
  norm3 (cross3 (sub3 p a) (sub3 b a)) / norm3 (sub3 b a)

/-- Option-valued running minimum, exactly the JS idiom
`min = min === null ? v : Math.min(min, v)` folded over a list. -/
noncomputable def foldMinOpt (l : List ℝ) : Option ℝ :=
  l.foldl (fun acc a =>
    some (match acc with | none => a | some m => min m a)) none

/-- Option-valued running maximum, exactly the JS idiom
`max = max === null ? v : Math.max(max, v)` folded over a list. -/
noncomputable def foldMaxOpt (l : List ℝ) : Option ℝ :=
  l.foldl (fun acc a =>
    some (match acc with | none => a | some m => max m a)) none

theorem foldMinOpt_from_some (l : List ℝ) (m : ℝ) :
    l.foldl (fun acc a =>
      some (match acc with | none => a | some m => min m a)) (some m) =
    some (l.foldl min m) := by
  induction l generalizing m with
  | nil => rfl
  | cons a t ih => simpa using ih (min m a)

theorem foldMaxOpt_from_some (l : List ℝ) (m : ℝ) :
    l.foldl (fun acc a =>
      some (match acc with | none => a | some m => max m a)) (some m) =
    some (l.foldl max m) := by
  induction l generalizing m with
  | nil => rfl
  | cons a t ih => simpa using ih (max m a)

theorem foldMinOpt_cons (a : ℝ) (t : List ℝ) :
    foldMinOpt (a :: t) = some (t.foldl min a) := by
  unfold foldMinOpt
  simpa using foldMinOpt_from_some t a

theorem foldMaxOpt_cons (a : ℝ) (t : List ℝ) :
    foldMaxOpt (a :: t) = some (t.foldl max a) := by
  unfold foldMaxOpt
  simpa using foldMaxOpt_from_some t a

theorem init_le_foldl_max (l : List ℝ) : ∀ m : ℝ, m ≤ l.foldl max m := by
  induction l with
  | nil => intro m; simp
  | cons a t ih => intro m; exact le_trans (le_max_left m a) (by simpa using ih (max m a))

theorem mem_le_foldl_max (l : List ℝ) : ∀ m : ℝ, ∀ a ∈ l, a ≤ l.foldl max m := by
  induction l with
  | nil => intro m a ha; simp at ha
  | cons b t ih =>
    intro m a ha
    rcases List.mem_cons.mp ha with h | h
    · subst h
      exact le_trans (le_max_right m a) (init_le_foldl_max t (max m a))
    · simpa using ih (max m b) a h

theorem foldl_max_le (l : List ℝ) : ∀ m c : ℝ, m ≤ c → (∀ a ∈ l, a ≤ c) →
    l.foldl max m ≤ c := by
  induction l with
  | nil => intro m c hm _; simpa using hm
  | cons a t ih =>
    intro m c hm hl
    simp only [List.foldl_cons]
    exact ih (max m a) c (max_le hm (hl a (List.mem_cons_self a t)))
      (fun b hb => hl b (List.mem_cons_of_mem a hb))

theorem ge_of_foldl_min (l : List ℝ) : ∀ m c : ℝ, c ≤ m → (∀ a ∈ l, c ≤ a) →
    c ≤ l.foldl min m := by
  induction l with
  | nil => intro m c hm _; simpa using hm
  | cons a t ih =>
    intro m c hm hl
    simp only [List.foldl_cons]
    exact ih (min m a) c (le_min hm (hl a (List.mem_cons_self a t)))
      (fun b hb => hl b (List.mem_cons_of_mem a hb))

theorem foldl_min_le_init (l : List ℝ) : ∀ m : ℝ, l.foldl min m ≤ m := by
  induction l with
  | nil => intro m; simp
  | cons a t ih => intro m; exact le_trans (by simpa using ih (min m a)) (min_le_left m a)

/-- The maximum characterization used below: if every element is `≤ c` and
`c` occurs in the list, the option-valued running maximum is `some c`. -/
theorem foldMaxOpt_eq_of_mem_of_le (l : List ℝ) (c : ℝ)
    (hmem : c ∈ l) (hle : ∀ a ∈ l, a ≤ c) : foldMaxOpt l = some c := by
  cases l with
  | nil => simp at hmem
  | cons a t =>
    rw [foldMaxOpt_cons]
    congr 1
    have h1 : t.foldl max a ≤ c :=
      foldl_max_le t a c (hle a (List.mem_cons_self a t))
        (fun b hb => hle b (List.mem_cons_of_mem a hb))
    have h2 : c ≤ t.foldl max a := by
      rcases List.mem_cons.mp hmem with h | h
      · subst h; exact init_le_foldl_max t c
      · exact mem_le_foldl_max t a c h
    exact le_antisymm h1 h2

/-! ### `_bulgeToArc` (DXFLoader.js lines 532–562), decomposed -/

/-- The loader's option record (constructor, DXFLoader.js lines 88–96) with
its default values `circleSegments = 64`, `arcSegmentAngle = 10°`. -/
structure DxfOptions where
  defaultColor : ℤ
  circleSegments : ℕ
  arcSegmentAngle : ℚ

def defaultOptions : DxfOptions := ⟨DEFAULT_COLOR, 64, 10⟩

/-- `chord.length()` for `chord = (end - start)` projected to the XY plane. -/
noncomputable def bulgeChordLength (p q : Vec3) : ℝ :=
  Real.sqrt ((q.x - p.x) ^ 2 + (q.y - p.y) ^ 2)

/-- `sagitta = (bulge * chordLength) / 2`. -/
noncomputable def bulgeSagitta (p q : Vec3) (bulge : ℝ) : ℝ :=
  (bulge * bulgeChordLength p q) / 2

/-- `radius = ((chordLength / 2) ** 2 + sagitta ** 2) / (2 * Math.abs(sagitta))`. -/
noncomputable def bulgeRadius (p q : Vec3) (bulge : ℝ) : ℝ :=
  ((bulgeChordLength p q / 2) ^ 2 + bulgeSagitta p q bulge ^ 2) /
    (2 * |bulgeSagitta p q bulge|)

/-- The computed arc centre: chord midpoint displaced along the normalized
chord perpendicular by `±centerOffset` according to the sign of the sagitta
(`THREE.Vector2.normalize` divides by `length() || 1`). -/
noncomputable def bulgeCenter (p q : Vec3) (bulge : ℝ) : ℝ × ℝ :=
  let centerOffset : ℝ :=
    Real.sqrt (max (bulgeRadius p q bulge ^ 2 - (bulgeChordLength p q / 2) ^ 2) 0)
  let chordMid : ℝ × ℝ := ((p.x + q.x) / 2, (p.y + q.y) / 2)
  let perpRaw : ℝ × ℝ := (-(q.y - p.y), q.x - p.x)
  let len : ℝ := Real.sqrt (perpRaw.1 ^ 2 + perpRaw.2 ^ 2)
  let len1 : ℝ := if len = 0 then 1 else len
  let perp : ℝ × ℝ := (perpRaw.1 / len1, perpRaw.2 / len1)
  let signedOffset : ℝ :=
    if 0 ≤ bulgeSagitta p q bulge then centerOffset else -centerOffset
  (chordMid.1 + perp.1 * signedOffset, chordMid.2 + perp.2 * signedOffset)

/-- `startAngle = Math.atan2(start.y - center.y, start.x - center.x)`. -/
noncomputable def bulgeStartAngle (p q : Vec3) (bulge : ℝ) : ℝ :=
  jsAtan2 (p.y - (bulgeCenter p q bulge).2) (p.x - (bulgeCenter p q bulge).1)

/-- `endAngle = Math.atan2(end.y - center.y, end.x - center.x)`. -/
noncomputable def bulgeEndAngle (p q : Vec3) (bulge : ℝ) : ℝ :=
  jsAtan2 (q.y - (bulgeCenter p q bulge).2) (q.x - (bulgeCenter p q bulge).1)

/-- Sweep correction: positive bulge forces a counter-clockwise (positive)
sweep, negative bulge a clockwise one. -/
noncomputable def bulgeSweep (p q : Vec3) (bulge : ℝ) : ℝ :=
  let sweep := bulgeEndAngle p q bulge - bulgeStartAngle p q bulge
  if 0 < bulge ∧ sweep < 0 then sweep + 2 * Real.pi
  else if bulge < 0 ∧ 0 < sweep then sweep - 2 * Real.pi
  else sweep

/-- `steps = Math.max(4, Math.ceil(Math.abs(sweep) / segmentAngle))`. -/
noncomputable def bulgeSteps (opts : DxfOptions) (p q : Vec3) (bulge : ℝ) : ℕ :=
  max 4 ⌈|bulgeSweep p q bulge| / degToRad (opts.arcSegmentAngle : ℝ)⌉₊

/-- `_bulgeToArc` (DXFLoader.js line 532): the replacement points for the
straight segment from `p` to `q`, stepping `step = 1 .. steps` along the
swept arc; a zero-length chord returns just the end point. -/
noncomputable def bulgeToArc (opts : DxfOptions) (p q : Vec3) (bulge : ℝ) :
    List Vec3 :=
  if bulgeChordLength p q = 0 then [q]
  else
    (List.range (bulgeSteps opts p q bulge)).map (fun (i : ℕ) =>
      let angle : ℝ := bulgeStartAngle p q bulge +
        (bulgeSweep p q bulge * ((i : ℝ) + 1)) / (bulgeSteps opts p q bulge : ℝ)
      ⟨(bulgeCenter p q bulge).1 + bulgeRadius p q bulge * Real.cos angle,
       (bulgeCenter p q bulge).2 + bulgeRadius p q bulge * Real.sin angle,
       p.z⟩)

/-! #### Evaluation of the semicircle example `(0,0,0) → (10,0,0)`, `b = 1` -/

theorem bulge_ex_chord : bulgeChordLength ⟨0, 0, 0⟩ ⟨10, 0, 0⟩ = 10 := by
  unfold bulgeChordLength
  rw [show ((10:ℝ) - 0) ^ 2 + (0 - 0) ^ 2 = 10 ^ 2 by norm_num]
  exact Real.sqrt_sq (by norm_num)

theorem bulge_ex_sagitta : bulgeSagitta ⟨0, 0, 0⟩ ⟨10, 0, 0⟩ 1 = 5 := by
  unfold bulgeSagitta
  rw [bulge_ex_chord]
  norm_num

theorem bulge_ex_radius : bulgeRadius ⟨0, 0, 0⟩ ⟨10, 0, 0⟩ 1 = 5 := by
  unfold bulgeRadius
  rw [bulge_ex_chord, bulge_ex_sagitta]
  norm_num

theorem bulge_ex_center : bulgeCenter ⟨0, 0, 0⟩ ⟨10, 0, 0⟩ 1 = (5, 0) := by
  unfold bulgeCenter
  rw [bulge_ex_chord, bulge_ex_radius, bulge_ex_sagitta]
  norm_num

theorem bulge_ex_start : bulgeStartAngle ⟨0, 0, 0⟩ ⟨10, 0, 0⟩ 1 = Real.pi := by
  unfold bulgeStartAngle
  rw [bulge_ex_center]
  show jsAtan2 (0 - 0) (0 - 5) = Real.pi
  unfold jsAtan2
  have h : (⟨0 - 5, 0 - 0⟩ : ℂ) = ((-5 : ℝ) : ℂ) := by
    apply Complex.ext <;> simp
  rw [h]
  exact Complex.arg_ofReal_of_neg (by norm_num)

theorem bulge_ex_end : bulgeEndAngle ⟨0, 0, 0⟩ ⟨10, 0, 0⟩ 1 = 0 := by
  unfold bulgeEndAngle
  rw [bulge_ex_center]
  show jsAtan2 (0 - 0) (10 - 5) = 0
  unfold jsAtan2
  have h : (⟨10 - 5, 0 - 0⟩ : ℂ) = ((5 : ℝ) : ℂ) := by
    apply Complex.ext <;> simp <;> norm_num
  rw [h]
  exact Complex.arg_ofReal_of_nonneg (by norm_num)

theorem bulge_ex_sweep : bulgeSweep ⟨0, 0, 0⟩ ⟨10, 0, 0⟩ 1 = Real.pi := by
  unfold bulgeSweep
  rw [bulge_ex_start, bulge_ex_end]
  have hneg : (0 : ℝ) - Real.pi < 0 := by
    have := Real.pi_pos; linarith
  rw [if_pos ⟨by norm_num, hneg⟩]
  ring

theorem bulge_ex_steps : bulgeSteps defaultOptions ⟨0, 0, 0⟩ ⟨10, 0, 0⟩ 1 = 18 := by
  unfold bulgeSteps
  rw [bulge_ex_sweep]
  have hpi : |Real.pi| = Real.pi := abs_of_pos Real.pi_pos
  have hdeg : degToRad ((defaultOptions.arcSegmentAngle : ℚ) : ℝ) = Real.pi / 18 := by
    unfold degToRad defaultOptions
    norm_num
    ring
  rw [hpi, hdeg]
  have : Real.pi / (Real.pi / 18) = (18 : ℝ) := by
    field_simp
  rw [this]
  norm_num

theorem bulge_ex_points : bulgeToArc defaultOptions ⟨0, 0, 0⟩ ⟨10, 0, 0⟩ 1 =
    (List.range 18).map (fun i =>
      ⟨5 + 5 * Real.cos (Real.pi + (Real.pi * ((i : ℝ) + 1)) / 18),
       5 * Real.sin (Real.pi + (Real.pi * ((i : ℝ) + 1)) / 18), 0⟩) := by
  unfold bulgeToArc
  rw [bulge_ex_chord]
  rw [if_neg (by norm_num)]
  rw [bulge_ex_steps, bulge_ex_start, bulge_ex_sweep, bulge_ex_center,
    bulge_ex_radius]
  apply List.map_congr_left
  intro i _
  simp only
  congr 1 <;> ring_nf

/-- Distance of an arc sample point from the computed centre `(5, 0)`. -/
theorem bulge_ex_dist_center (θ : ℝ) :
    dist3 ⟨5 + 5 * Real.cos θ, 5 * Real.sin θ, 0⟩ ⟨5, 0, 0⟩ = 5 := by
  unfold dist3 distSq3
  have h : (5 + 5 * Real.cos θ - 5) ^ 2 + (5 * Real.sin θ - 0) ^ 2 +
      ((0 : ℝ) - 0) ^ 2 = 5 ^ 2 := by
    have := Real.sin_sq_add_cos_sq θ
    nlinarith [this]
  rw [h]
  exact Real.sqrt_sq (by norm_num)

/-- Perpendicular deviation of an arc sample point from the chord. -/
theorem bulge_ex_deviation (θ : ℝ) :
    chordDeviation ⟨0, 0, 0⟩ ⟨10, 0, 0⟩
      ⟨5 + 5 * Real.cos θ, 5 * Real.sin θ, 0⟩ = 5 * |Real.sin θ| := by
  unfold chordDeviation sub3 cross3 norm3
  simp only
  have h1 : ((5 + 5 * Real.cos θ - 0) * (0 - 0) - (5 * Real.sin θ - 0) * (10 - 0)) =
      -(50 * Real.sin θ) := by ring
  have hb : Real.sqrt (((10:ℝ) - 0) ^ 2 + (0 - 0) ^ 2 + (0 - 0) ^ 2) = 10 := by
    rw [show ((10:ℝ) - 0) ^ 2 + (0 - 0) ^ 2 + (0 - 0) ^ 2 = 10 ^ 2 by norm_num]
    exact Real.sqrt_sq (by norm_num)
  have ha : Real.sqrt
      (((5 * Real.sin θ - 0) * (0 - 0) - (0 - 0) * (0 - 0)) ^ 2 +
        ((0 - 0) * (10 - 0) - (5 + 5 * Real.cos θ - 0) * (0 - 0)) ^ 2 +
        ((5 + 5 * Real.cos θ - 0) * (0 - 0) - (5 * Real.sin θ - 0) * (10 - 0)) ^ 2) =
      50 * |Real.sin θ| := by
    rw [show ((5 * Real.sin θ - 0) * (0 - 0) - (0 - 0) * (0 - 0)) ^ 2 +
        ((0 - 0) * (10 - 0) - (5 + 5 * Real.cos θ - 0) * (0 - 0)) ^ 2 +
        ((5 + 5 * Real.cos θ - 0) * (0 - 0) - (5 * Real.sin θ - 0) * (10 - 0)) ^ 2 =
        (50 * Real.sin θ) ^ 2 by ring]
    rw [Real.sqrt_sq_eq_abs, abs_mul]
    norm_num
  rw [ha, hb]
  ring

/-- C6: expanding the two-point polyline segment `(0,0,0) → (10,0,0)` with
bulge `b = 1` yields arc points that all lie at distance 5 from the computed
arc centre, and the maximum perpendicular deviation of the expanded points
from the chord is exactly `5` (half the chord length). -/
theorem C6_bulge_semicircle :
    List.Forall (fun pt =>
        dist3 pt ⟨(bulgeCenter ⟨0, 0, 0⟩ ⟨10, 0, 0⟩ 1).1,
                  (bulgeCenter ⟨0, 0, 0⟩ ⟨10, 0, 0⟩ 1).2, 0⟩ = 5)
      (bulgeToArc defaultOptions ⟨0, 0, 0⟩ ⟨10, 0, 0⟩ 1) ∧
    foldMaxOpt ((bulgeToArc defaultOptions ⟨0, 0, 0⟩ ⟨10, 0, 0⟩ 1).map
        (chordDeviation ⟨0, 0, 0⟩ ⟨10, 0, 0⟩)) = some 5 := by
  constructor
  · rw [List.forall_iff_forall_mem, bulge_ex_center, bulge_ex_points]
    intro pt hpt
    obtain ⟨i, _, rfl⟩ := List.mem_map.mp hpt
    exact bulge_ex_dist_center _
  · rw [bulge_ex_points, List.map_map]
    apply foldMaxOpt_eq_of_mem_of_le
    · rw [List.mem_map]
      refine ⟨8, by simp, ?_⟩
      simp only [Function.comp_apply]
      rw [bulge_ex_deviation]
      have harg : Real.pi + Real.pi * ((8 : ℕ) + 1) / 18 =
          Real.pi + Real.pi / 2 := by
        push_cast
        ring
      rw [harg]
      have hsin : Real.sin (Real.pi + Real.pi / 2) = -1 := by
        rw [Real.sin_add]
        simp
      rw [hsin]
      norm_num
    · intro a ha
      rw [List.mem_map] at ha
      obtain ⟨i, _, rfl⟩ := ha
      simp only [Function.comp_apply]
      rw [bulge_ex_deviation]
      have := Real.abs_sin_le_one (Real.pi + Real.pi * ((i : ℝ) + 1) / 18)
      nlinarith [this]

/-! ### Scene-graph objects and `_createLine` -/

noncomputable instance : DecidableEq Vec3 := fun _ _ => Classical.dec _

/-- The objects the loader adds to the output `THREE.Group`.  Material caching
is identity-only in the source and is not modelled; a `mesh` records the four
(possibly non-finite, hence optional) `3DFACE` corners — the triangle
assembly is presentation-level. -/
inductive DxfObject where
  | line (points : List Vec3) (closed : Bool) (color : ℤ)
  | pointMarker (p : Vec3) (color : ℤ)
  | mesh (v1 v2 v3 v4 : Option Vec3) (color : ℤ)

/-- `_createLine` (DXFLoader.js line 515): a closed polyline with more than
one point whose first and last points differ gets the first point appended;
`closed` selects `LineLoop` over `Line`. -/
noncomputable def createLine (points : List Vec3) (closed : Bool) (color : ℤ) :
    DxfObject :=
  let pts :=
    if closed = true ∧ 1 < points.length ∧ points.head? ≠ points.getLast? then
      points ++ (points.head?.elim [] (fun h => [h]))
    else points
  DxfObject.line pts closed color

/-- `getNumber` with the result used as a float coordinate. -/
noncomputable def getNumberR (data : EntityData) (code : ℤ) (idx : ℕ)
    (fallback : ℚ) : ℝ :=
  ((getNumber data code idx fallback : ℚ) : ℝ)

/-! ### `_collectEntityData` (DXFLoader.js line 498) -/

/-- The collection loop: harvest `(code, value)` pairs into the field table
until the next code-0 marker (or the end of the stream), returning the table
and the index of the stopping pair. -/
def collectGo (pairs : List DxfPair) (i : ℕ) (acc : EntityData) :
    EntityData × ℕ :=
  match h : pairs.get? i with
  | none => (acc, i)
  | some pair =>
    if pair.code = 0 then (acc, i)
    else collectGo pairs (i + 1) (dataAdd acc pair.code pair.value)
termination_by pairs.length - i
decreasing_by
  have hlt : i < pairs.length := List.get?_eq_some.mp h |>.1
  omega

/-- `_collectEntityData(pairs, index)`. -/
def collectEntityData (pairs : List DxfPair) (index : ℕ) : EntityData × ℕ :=
  collectGo pairs index []

theorem collectGo_ge (pairs : List DxfPair) (i : ℕ) (acc : EntityData) :
    i ≤ (collectGo pairs i acc).2 := by
  rw [collectGo.eq_def]
  cases h : pairs.get? i with
  | none => simp
  | some pair =>
    by_cases hc : pair.code = 0
    · simp [hc]
    · simp only [hc, if_false]
      have hlt : i < pairs.length := List.get?_eq_some.mp h |>.1
      have ih := collectGo_ge pairs (i + 1) (dataAdd acc pair.code pair.value)
      omega
termination_by pairs.length - i
decreasing_by
  have hlt : i < pairs.length := List.get?_eq_some.mp h |>.1
  omega

theorem collectEntityData_ge (pairs : List DxfPair) (index : ℕ) :
    index ≤ (collectEntityData pairs index).2 :=
  collectGo_ge pairs index []

/-! ### Entity parsers (DXFLoader.js lines 274–496) -/

/-- `_parseLine` (DXFLoader.js line 274): coincident start/end coordinates
produce no object. -/
noncomputable def parseLine (opts : DxfOptions) (pairs : List DxfPair)
    (index : ℕ) (layers : LayerMap) : Option DxfObject × ℕ :=
  let r := collectEntityData pairs index
  let data := r.1
  let start : Vec3 :=
    ⟨getNumberR data 10 0 0, getNumberR data 20 0 0, getNumberR data 30 0 0⟩
  let stop : Vec3 :=
    ⟨getNumberR data 11 0 0, getNumberR data 21 0 0, getNumberR data 31 0 0⟩
  if start = stop then (none, r.2)
  else
    (some (createLine [start, stop] false
      (resolveColor data layers opts.defaultColor)), r.2)

/-- `_parseCircle` (DXFLoader.js line 371): a non-positive radius produces
no object; otherwise the circle is tessellated with
`max(16, circleSegments)` samples. -/
noncomputable def parseCircle (opts : DxfOptions) (pairs : List DxfPair)
    (index : ℕ) (layers : LayerMap) : Option DxfObject × ℕ :=
  let r := collectEntityData pairs index
  let data := r.1
  let center : Vec3 :=
    ⟨getNumberR data 10 0 0, getNumberR data 20 0 0, getNumberR data 30 0 0⟩
  let radius : ℝ := getNumberR data 40 0 0
  if radius ≤ 0 then (none, r.2)
  else
    let segments : ℕ := max 16 opts.circleSegments
    let points : List Vec3 := (List.range segments).map (fun (i : ℕ) =>
      let angle : ℝ := ((i : ℝ) / (segments : ℝ)) * Real.pi * 2
      ⟨center.x + radius * Real.cos angle, center.y + radius * Real.sin angle,
        center.z⟩)
    (some (createLine points true
      (resolveColor data layers opts.defaultColor)), r.2)

/-- `_parseArc` (DXFLoader.js line 395). -/
noncomputable def parseArc (opts : DxfOptions) (pairs : List DxfPair)
    (index : ℕ) (layers : LayerMap) : Option DxfObject × ℕ :=
  let r := collectEntityData pairs index
  let data := r.1
  let center : Vec3 :=
    ⟨getNumberR data 10 0 0, getNumberR data 20 0 0, getNumberR data 30 0 0⟩
  let radius : ℝ := getNumberR data 40 0 0
  if radius ≤ 0 then (none, r.2)
  else
    let startRad : ℝ := degToRad (getNumberR data 50 0 0)
    let endRad : ℝ := degToRad (getNumberR data 51 0 0)
    let sweepRaw : ℝ := endRad - startRad
    let sweep : ℝ := if sweepRaw ≤ 0 then sweepRaw + Real.pi * 2 else sweepRaw
    let steps : ℕ := max 8 ⌈sweep / degToRad (opts.arcSegmentAngle : ℝ)⌉₊
    let points : List Vec3 := (List.range (steps + 1)).map (fun (step : ℕ) =>
      let t : ℝ := startRad + (sweep * (step : ℝ)) / (steps : ℝ)
      ⟨center.x + radius * Real.cos t, center.y + radius * Real.sin t,
        center.z⟩)
    (some (createLine points false
      (resolveColor data layers opts.defaultColor)), r.2)

/-- `_parsePoint` (DXFLoader.js line 428): the `x`/`y` slots use a `NaN`
fallback and the point is dropped unless all coordinates are finite. -/
noncomputable def parsePoint (opts : DxfOptions) (pairs : List DxfPair)
    (index : ℕ) (layers : LayerMap) : Option DxfObject × ℕ :=
  let r := collectEntityData pairs index
  let data := r.1
  match getNumberOpt data 10 0, getNumberOpt data 20 0 with
  | some x, some y =>
    (some (DxfObject.pointMarker ⟨(x : ℝ), (y : ℝ), getNumberR data 30 0 0⟩
      (resolveColor data layers opts.defaultColor)), r.2)
  | _, _ => (none, r.2)

/-- One optional `3DFACE` corner: all three coordinate slots parsed with a
`NaN` fallback. -/
def faceVertexOpt (data : EntityData) (cx cy cz : ℤ) : Option (ℚ × ℚ × ℚ) :=
  match getNumberOpt data cx 0, getNumberOpt data cy 0, getNumberOpt data cz 0 with
  | some x, some y, some z => some (x, y, z)
  | _, _, _ => none

/-- `_parse3dFace` (DXFLoader.js line 452): fewer than 3 finite corners
produce no object. -/
noncomputable def parse3dFace (opts : DxfOptions) (pairs : List DxfPair)
    (index : ℕ) (layers : LayerMap) : Option DxfObject × ℕ :=
  let r := collectEntityData pairs index
  let data := r.1
  let v1 := faceVertexOpt data 10 20 30
  let v2 := faceVertexOpt data 11 21 31
  let v3 := faceVertexOpt data 12 22 32
  let v4 := faceVertexOpt data 13 23 33
  let toVec : Option (ℚ × ℚ × ℚ) → Option Vec3 := fun o =>
    o.map (fun t => ⟨(t.1 : ℝ), (t.2.1 : ℝ), (t.2.2 : ℝ)⟩)
  let finiteCount := [v1, v2, v3, v4].countP Option.isSome
  if finiteCount < 3 then (none, r.2)
  else
    (some (DxfObject.mesh (toVec v1) (toVec v2) (toVec v3) (toVec v4)
      (resolveColor data layers opts.defaultColor)), r.2)

/-- JS `arr[i] || '0'`: a missing or empty entry falls back to `'0'`. -/
def jsIndexOr (l : List String) (i : ℕ) (d : String) : String :=
  match l.get? i with
  | some s => if s = "" then d else s
  | none => d

/-- The vertex loop of `_parseLwPolyline` (DXFLoader.js lines 301–318):
push each finite vertex; a finite bulge of magnitude `> 1e-6` replaces the
just-pushed segment end by the expanded arc points (`splice`). -/
noncomputable def lwVertexLoop (opts : DxfOptions)
    (xs ys zs bulges : List String) (i : ℕ) (verts : List Vec3) : List Vec3 :=
  match h : xs.get? i with
  | none => verts
  | some xstr =>
    let xv := jsParseFloat xstr
    let yv := jsParseFloat (jsIndexOr ys i "0")
    let zv := jsParseFloat (jsIndexOr zs i "0")
    match xv, yv, zv with
    | some x, some y, some z =>
      let verts1 := verts ++ [⟨(x : ℝ), (y : ℝ), (z : ℝ)⟩]
      let verts2 :=
        match jsParseFloat (jsIndexOr bulges i "0") with
        | some b =>
          if 1 / 1000000 < |(b : ℝ)| then
            match verts1.get? (verts1.length - 2),
                verts1.get? (verts1.length - 1) with
            | some s, some e => verts1.dropLast ++ bulgeToArc opts s e (b : ℝ)
            | _, _ => verts1
          else verts1
        | none => verts1
      lwVertexLoop opts xs ys zs bulges (i + 1) verts2
    | _, _, _ => lwVertexLoop opts xs ys zs bulges (i + 1) verts
termination_by xs.length - i
decreasing_by
  all_goals
    have hlt : i < xs.length := List.get?_eq_some.mp h |>.1
    omega

/-- `_parseLwPolyline` (DXFLoader.js line 294). -/
noncomputable def parseLwPolyline (opts : DxfOptions) (pairs : List DxfPair)
    (index : ℕ) (layers : LayerMap) : Option DxfObject × ℕ :=
  let r := collectEntityData pairs index
  let data := r.1
  let xs := (dataGet data 10).getD []
  let ys := (dataGet data 20).getD []
  let zs := (dataGet data 30).getD []
  let bulges := (dataGet data 42).getD []
  let vertices := lwVertexLoop opts xs ys zs bulges 0 []
  if vertices.isEmpty then (none, r.2)
  else
    let flag := (getIntegerOpt data 70 0).getD 0
    let closed := flag % 2 = 1
    (some (createLine vertices closed
      (resolveColor data layers opts.defaultColor)), r.2)

/-- The `VERTEX`/`SEQEND` loop of `_parsePolyline` (DXFLoader.js 338–362). -/
def polylineVertexRecords (pairs : List DxfPair) (i : ℕ)
    (verts : List (ℚ × ℚ × ℚ)) : List (ℚ × ℚ × ℚ) × ℕ :=
  match h : pairs.get? i with
  | none => (verts, i)
  | some pair =>
    if pair.code ≠ 0 then polylineVertexRecords pairs (i + 1) verts
    else
      let ty := jsToUpper (jsTrim pair.value)
      if ty = "VERTEX" then
        let r := collectEntityData pairs (i + 1)
        let verts1 :=
          match getNumberOpt r.1 10 0, getNumberOpt r.1 20 0 with
          | some x, some y => verts ++ [(x, y, getNumber r.1 30 0 0)]
          | _, _ => verts
        polylineVertexRecords pairs r.2 verts1
      else if ty = "SEQEND" then
        (verts, (collectEntityData pairs (i + 1)).2)
      else (verts, i)
termination_by pairs.length - i
decreasing_by
  · have hlt : i < pairs.length := List.get?_eq_some.mp h |>.1
    omega
  · have hlt : i < pairs.length := List.get?_eq_some.mp h |>.1
    have := collectEntityData_ge pairs (i + 1)
    omega

/-- `_parsePolyline` (DXFLoader.js line 329). -/
noncomputable def parsePolyline (opts : DxfOptions) (pairs : List DxfPair)
    (index : ℕ) (layers : LayerMap) : Option DxfObject × ℕ :=
  let base := collectEntityData pairs index
  let flag := (getIntegerOpt base.1 70 0).getD 0
  let closed := flag % 2 = 1
  let rec2 := polylineVertexRecords pairs base.2 []
  let vertices : List Vec3 :=
    rec2.1.map (fun t => ⟨(t.1 : ℝ), (t.2.1 : ℝ), (t.2.2 : ℝ)⟩)
  if vertices.isEmpty then (none, rec2.2)
  else
    (some (createLine vertices closed
      (resolveColor base.1 layers opts.defaultColor)), rec2.2)

/-! ### Section walkers (DXFLoader.js lines 121–272) -/

theorem polylineVertexRecords_ge (pairs : List DxfPair) (i : ℕ)
    (verts : List (ℚ × ℚ × ℚ)) : i ≤ (polylineVertexRecords pairs i verts).2 := by
  rw [polylineVertexRecords.eq_def]
  cases h : pairs.get? i with
  | none => simp
  | some pair =>
    have hlt : i < pairs.length := List.get?_eq_some.mp h |>.1
    dsimp only
    by_cases hc : pair.code ≠ 0
    · rw [if_pos hc]
      have := polylineVertexRecords_ge pairs (i + 1) verts
      omega
    · rw [if_neg hc]
      by_cases hv : jsToUpper (jsTrim pair.value) = "VERTEX"
      · rw [if_pos hv]
        have hge := collectEntityData_ge pairs (i + 1)
        have := polylineVertexRecords_ge pairs (collectEntityData pairs (i + 1)).2
          (match getNumberOpt (collectEntityData pairs (i + 1)).1 10 0,
              getNumberOpt (collectEntityData pairs (i + 1)).1 20 0 with
            | some x, some y =>
              verts ++ [(x, y, getNumber (collectEntityData pairs (i + 1)).1 30 0 0)]
            | _, _ => verts)
        omega
      · rw [if_neg hv]
        by_cases hs : jsToUpper (jsTrim pair.value) = "SEQEND"
        · rw [if_pos hs]
          have := collectEntityData_ge pairs (i + 1)
          omega
        · rw [if_neg hs]
termination_by pairs.length - i
decreasing_by
  all_goals
    have hlt : i < pairs.length := List.get?_eq_some.mp h |>.1
    have := collectEntityData_ge pairs (i + 1)
    omega

theorem parseLine_next_ge (opts : DxfOptions) (pairs : List DxfPair)
    (index : ℕ) (layers : LayerMap) :
    index ≤ (parseLine opts pairs index layers).2 := by
  unfold parseLine
  have := collectEntityData_ge pairs index
  by_cases h : (⟨getNumberR (collectEntityData pairs index).1 10 0 0,
      getNumberR (collectEntityData pairs index).1 20 0 0,
      getNumberR (collectEntityData pairs index).1 30 0 0⟩ : Vec3) =
      ⟨getNumberR (collectEntityData pairs index).1 11 0 0,
       getNumberR (collectEntityData pairs index).1 21 0 0,
       getNumberR (collectEntityData pairs index).1 31 0 0⟩ <;>
    simp [h, this]

theorem parseCircle_next_ge (opts : DxfOptions) (pairs : List DxfPair)
    (index : ℕ) (layers : LayerMap) :
    index ≤ (parseCircle opts pairs index layers).2 := by
  unfold parseCircle
  have := collectEntityData_ge pairs index
  by_cases h : getNumberR (collectEntityData pairs index).1 40 0 0 ≤ 0 <;>
    simp [h, this]

theorem parseArc_next_ge (opts : DxfOptions) (pairs : List DxfPair)
    (index : ℕ) (layers : LayerMap) :
    index ≤ (parseArc opts pairs index layers).2 := by
  unfold parseArc
  have := collectEntityData_ge pairs index
  by_cases h : getNumberR (collectEntityData pairs index).1 40 0 0 ≤ 0 <;>
    simp [h, this]

theorem parsePoint_next_ge (opts : DxfOptions) (pairs : List DxfPair)
    (index : ℕ) (layers : LayerMap) :
    index ≤ (parsePoint opts pairs index layers).2 := by
  unfold parsePoint
  have := collectEntityData_ge pairs index
  cases hx : getNumberOpt (collectEntityData pairs index).1 10 0 <;>
    cases hy : getNumberOpt (collectEntityData pairs index).1 20 0 <;>
    simp [hx, hy, this]

theorem parse3dFace_next_ge (opts : DxfOptions) (pairs : List DxfPair)
    (index : ℕ) (layers : LayerMap) :
    index ≤ (parse3dFace opts pairs index layers).2 := by
  unfold parse3dFace
  have := collectEntityData_ge pairs index
  by_cases h : [faceVertexOpt (collectEntityData pairs index).1 10 20 30,
      faceVertexOpt (collectEntityData pairs index).1 11 21 31,
      faceVertexOpt (collectEntityData pairs index).1 12 22 32,
      faceVertexOpt (collectEntityData pairs index).1 13 23 33].countP
      Option.isSome < 3 <;>
    simp [h, this]

theorem parseLwPolyline_next_ge (opts : DxfOptions) (pairs : List DxfPair)
    (index : ℕ) (layers : LayerMap) :
    index ≤ (parseLwPolyline opts pairs index layers).2 := by
  unfold parseLwPolyline
  have := collectEntityData_ge pairs index
  by_cases h : (lwVertexLoop opts ((dataGet (collectEntityData pairs index).1 10).getD [])
      ((dataGet (collectEntityData pairs index).1 20).getD [])
      ((dataGet (collectEntityData pairs index).1 30).getD [])
      ((dataGet (collectEntityData pairs index).1 42).getD []) 0 []).isEmpty <;>
    simp [h, this]

theorem parsePolyline_next_ge (opts : DxfOptions) (pairs : List DxfPair)
    (index : ℕ) (layers : LayerMap) :
    index ≤ (parsePolyline opts pairs index layers).2 := by
  unfold parsePolyline
  have h1 := collectEntityData_ge pairs index
  have h2 := polylineVertexRecords_ge pairs (collectEntityData pairs index).2 []
  dsimp only
  split <;> simpa using le_trans h1 h2

/-- The dispatch loop of `_parseEntities` (DXFLoader.js line 213):
recognized entity types contribute their (possibly dropped) object,
`ENDSEC` returns, and an unrecognized entity type is skipped by the generic
code-0 cursor advance. -/
noncomputable def parseEntitiesGo (opts : DxfOptions) (pairs : List DxfPair)
    (layers : LayerMap) (i : ℕ) (objs : List DxfObject) :
    List DxfObject × ℕ :=
  match h : pairs.get? i with
  | none => (objs, i)
  | some pair =>
    if hc : pair.code ≠ 0 then parseEntitiesGo opts pairs layers (i + 1) objs
    else
      let ty := jsToUpper (jsTrim pair.value)
      if ty = "ENDSEC" then (objs, i + 1)
      else if ty = "LINE" then
        let r := parseLine opts pairs (i + 1) layers
        parseEntitiesGo opts pairs layers r.2 (objs ++ r.1.toList)
      else if ty = "LWPOLYLINE" then
        let r := parseLwPolyline opts pairs (i + 1) layers
        parseEntitiesGo opts pairs layers r.2 (objs ++ r.1.toList)
      else if ty = "POLYLINE" then
        let r := parsePolyline opts pairs (i + 1) layers
        parseEntitiesGo opts pairs layers r.2 (objs ++ r.1.toList)
      else if ty = "CIRCLE" then
        let r := parseCircle opts pairs (i + 1) layers
        parseEntitiesGo opts pairs layers r.2 (objs ++ r.1.toList)
      else if ty = "ARC" then
        let r := parseArc opts pairs (i + 1) layers
        parseEntitiesGo opts pairs layers r.2 (objs ++ r.1.toList)
      else if ty = "POINT" then
        let r := parsePoint opts pairs (i + 1) layers
        parseEntitiesGo opts pairs layers r.2 (objs ++ r.1.toList)
      else if ty = "3DFACE" then
        let r := parse3dFace opts pairs (i + 1) layers
        parseEntitiesGo opts pairs layers r.2 (objs ++ r.1.toList)
      else
        parseEntitiesGo opts pairs layers (collectEntityData pairs (i + 1)).2 objs
termination_by pairs.length - i
decreasing_by
  all_goals
    have hlt : i < pairs.length := List.get?_eq_some.mp h |>.1
  · omega
  · have := parseLine_next_ge opts pairs (i + 1) layers; omega
  · have := parseLwPolyline_next_ge opts pairs (i + 1) layers; omega
  · have := parsePolyline_next_ge opts pairs (i + 1) layers; omega
  · have := parseCircle_next_ge opts pairs (i + 1) layers; omega
  · have := parseArc_next_ge opts pairs (i + 1) layers; omega
  · have := parsePoint_next_ge opts pairs (i + 1) layers; omega
  · have := parse3dFace_next_ge opts pairs (i + 1) layers; omega
  · have := collectEntityData_ge pairs (i + 1); omega

theorem parseEntitiesGo_ge (opts : DxfOptions) (pairs : List DxfPair)
    (layers : LayerMap) (i : ℕ) (objs : List DxfObject) :
    i ≤ (parseEntitiesGo opts pairs layers i objs).2 := by
  rw [parseEntitiesGo.eq_def]
  cases h : pairs.get? i with
  | none => simp
  | some pair =>
    have hlt : i < pairs.length := List.get?_eq_some.mp h |>.1
    dsimp only
    by_cases hc : pair.code ≠ 0
    · rw [dif_pos hc]
      have := parseEntitiesGo_ge opts pairs layers (i + 1) objs
      omega
    · rw [dif_neg hc]
      by_cases h1 : jsToUpper (jsTrim pair.value) = "ENDSEC"
    
      · rw [if_pos h1]; omega
      · rw [if_neg h1]
        by_cases h2 : jsToUpper (jsTrim pair.value) = "LINE"
        · rw [if_pos h2]
          have ha := parseLine_next_ge opts pairs (i + 1) layers
          have hb := parseEntitiesGo_ge opts pairs layers
            (parseLine opts pairs (i + 1) layers).2
            (objs ++ (parseLine opts pairs (i + 1) layers).1.toList)
          omega
        · rw [if_neg h2]
          by_cases h3 : jsToUpper (jsTrim pair.value) = "LWPOLYLINE"
          · rw [if_pos h3]
            have ha := parseLwPolyline_next_ge opts pairs (i + 1) layers
            have hb := parseEntitiesGo_ge opts pairs layers
              (parseLwPolyline opts pairs (i + 1) layers).2
              (objs ++ (parseLwPolyline opts pairs (i + 1) layers).1.toList)
            omega
          · rw [if_neg h3]
            by_cases h4 : jsToUpper (jsTrim pair.value) = "POLYLINE"
            · rw [if_pos h4]
              have ha := parsePolyline_next_ge opts pairs (i + 1) layers
              have hb := parseEntitiesGo_ge opts pairs layers
                (parsePolyline opts pairs (i + 1) layers).2
                (objs ++ (parsePolyline opts pairs (i + 1) layers).1.toList)
              omega
            · rw [if_neg h4]
              by_cases h5 : jsToUpper (jsTrim pair.value) = "CIRCLE"
              · rw [if_pos h5]
                have ha := parseCircle_next_ge opts pairs (i + 1) layers
                have hb := parseEntitiesGo_ge opts pairs layers
                  (parseCircle opts pairs (i + 1) layers).2
                  (objs ++ (parseCircle opts pairs (i + 1) layers).1.toList)
                omega
              · rw [if_neg h5]
                by_cases h6 : jsToUpper (jsTrim pair.value) = "ARC"
                · rw [if_pos h6]
                  have ha := parseArc_next_ge opts pairs (i + 1) layers
                  have hb := parseEntitiesGo_ge opts pairs layers
                    (parseArc opts pairs (i + 1) layers).2
                    (objs ++ (parseArc opts pairs (i + 1) layers).1.toList)
                  omega
                · rw [if_neg h6]
                  by_cases h7 : jsToUpper (jsTrim pair.value) = "POINT"
                  · rw [if_pos h7]
                    have ha := parsePoint_next_ge opts pairs (i + 1) layers
                    have hb := parseEntitiesGo_ge opts pairs layers
                      (parsePoint opts pairs (i + 1) layers).2
                      (objs ++ (parsePoint opts pairs (i + 1) layers).1.toList)
                    omega
                  · rw [if_neg h7]
                    by_cases h8 : jsToUpper (jsTrim pair.value) = "3DFACE"
                    · rw [if_pos h8]
                      have ha := parse3dFace_next_ge opts pairs (i + 1) layers
                      have hb := parseEntitiesGo_ge opts pairs layers
                        (parse3dFace opts pairs (i + 1) layers).2
                        (objs ++ (parse3dFace opts pairs (i + 1) layers).1.toList)
                      omega
                    · rw [if_neg h8]
                      have ha := collectEntityData_ge pairs (i + 1)
                      have hb := parseEntitiesGo_ge opts pairs layers
                        (collectEntityData pairs (i + 1)).2 objs
                      omega
termination_by pairs.length - i
decreasing_by
  all_goals
    have hlt2 : i < pairs.length := List.get?_eq_some.mp h |>.1
  · omega
  · have := parseLine_next_ge opts pairs (i + 1) layers; omega
  · have := parseLwPolyline_next_ge opts pairs (i + 1) layers; omega
  · have := parsePolyline_next_ge opts pairs (i + 1) layers; omega
  · have := parseCircle_next_ge opts pairs (i + 1) layers; omega
  · have := parseArc_next_ge opts pairs (i + 1) layers; omega
  · have := parsePoint_next_ge opts pairs (i + 1) layers; omega
  · have := parse3dFace_next_ge opts pairs (i + 1) layers; omega
  · have := collectEntityData_ge pairs (i + 1); omega

/-- The `LAYER`-record loop of `_parseLayerTable` (DXFLoader.js line 176):
each `LAYER` record stores its (truthy) name with the resolved color —
true color first, then the mapped indexed color, then the loader default. -/
def parseLayerTableGo (opts : DxfOptions) (pairs : List DxfPair) (i : ℕ)
    (layers : LayerMap) : LayerMap × ℕ :=
  match h : pairs.get? i with
  | none => (layers, i)
  | some pair =>
    if pair.code = 0 then
      let v := jsToUpper (jsTrim pair.value)
      if v = "ENDTAB" then (layers, i + 1)
      else if v = "LAYER" then
        let r := collectEntityData pairs (i + 1)
        let color : Option ℤ :=
          match getIntegerOpt r.1 420 0 with
          | some trueColor => some trueColor
          | none =>
            match getIntegerOpt r.1 62 0 with
            | some aci =>
              match aciToHex aci with
              | some mapped => some mapped
              | none => none
            | none => none
        let layers1 :=
          match getStringOpt r.1 2 0 with
          | some name =>
            if name ≠ "" then layersSet layers name (color.getD opts.defaultColor)
            else layers
          | none => layers
        parseLayerTableGo opts pairs r.2 layers1
      else parseLayerTableGo opts pairs (i + 1) layers
    else parseLayerTableGo opts pairs (i + 1) layers
termination_by pairs.length - i
decreasing_by
  all_goals
    have hlt : i < pairs.length := List.get?_eq_some.mp h |>.1
    have := collectEntityData_ge pairs (i + 1)
    omega

theorem parseLayerTableGo_ge (opts : DxfOptions) (pairs : List DxfPair)
    (i : ℕ) (layers : LayerMap) :
    i ≤ (parseLayerTableGo opts pairs i layers).2 := by
  rw [parseLayerTableGo.eq_def]
  cases h : pairs.get? i with
  | none => simp
  | some pair =>
    have hlt : i < pairs.length := List.get?_eq_some.mp h |>.1
    dsimp only
    by_cases hc : pair.code = 0
    · rw [if_pos hc]
      by_cases h1 : jsToUpper (jsTrim pair.value) = "ENDTAB"
      · rw [if_pos h1]; omega
      · rw [if_neg h1]
        by_cases h2 : jsToUpper (jsTrim pair.value) = "LAYER"
        · rw [if_pos h2]
          have ha := collectEntityData_ge pairs (i + 1)
          have hb := parseLayerTableGo_ge opts pairs
            (collectEntityData pairs (i + 1)).2
            (match getStringOpt (collectEntityData pairs (i + 1)).1 2 0 with
             | some name =>
               if name ≠ "" then
                 layersSet layers name
                   ((match getIntegerOpt (collectEntityData pairs (i + 1)).1 420 0 with
                     | some trueColor => some trueColor
                     | none =>
                       match getIntegerOpt (collectEntityData pairs (i + 1)).1 62 0 with
                       | some aci =>
                         match aciToHex aci with
                         | some mapped => some mapped
                         | none => none
                       | none => none).getD opts.defaultColor)
               else layers
             | none => layers)
          omega
        · rw [if_neg h2]
          have := parseLayerTableGo_ge opts pairs (i + 1) layers
          omega
    · rw [if_neg hc]
      have := parseLayerTableGo_ge opts pairs (i + 1) layers
      omega
termination_by pairs.length - i
decreasing_by
  all_goals
    have hlt2 : i < pairs.length := List.get?_eq_some.mp h |>.1
    have := collectEntityData_ge pairs (i + 1)
    omega

/-- `_parseTables` (DXFLoader.js line 153): only the `LAYER` table is
interpreted; everything else advances one pair at a time until `ENDSEC`. -/
def parseTablesGo (opts : DxfOptions) (pairs : List DxfPair) (i : ℕ)
    (layers : LayerMap) : LayerMap × ℕ :=
  match h : pairs.get? i with
  | none => (layers, i)
  | some pair =>
    if pair.code = 0 then
      let v := jsToUpper (jsTrim pair.value)
      if v = "ENDSEC" then (layers, i + 1)
      else if v = "TABLE" then
        let tableName :=
          match pairs.get? (i + 1) with
          | some np => if np.code = 2 then jsToUpper (jsTrim np.value) else ""
          | none => ""
        if tableName = "LAYER" then
          let r := parseLayerTableGo opts pairs (i + 2) layers
          parseTablesGo opts pairs r.2 r.1
        else parseTablesGo opts pairs (i + 1) layers
      else parseTablesGo opts pairs (i + 1) layers
    else parseTablesGo opts pairs (i + 1) layers
termination_by pairs.length - i
decreasing_by
  · have hlt : i < pairs.length := List.get?_eq_some.mp h |>.1
    have := parseLayerTableGo_ge opts pairs (i + 2) layers
    omega
  · have hlt : i < pairs.length := List.get?_eq_some.mp h |>.1
    omega
  · have hlt : i < pairs.length := List.get?_eq_some.mp h |>.1
    omega

theorem parseTablesGo_ge (opts : DxfOptions) (pairs : List DxfPair)
    (i : ℕ) (layers : LayerMap) : i ≤ (parseTablesGo opts pairs i layers).2 := by
  rw [parseTablesGo.eq_def]
  cases h : pairs.get? i with
  | none => simp
  | some pair =>
    have hlt : i < pairs.length := List.get?_eq_some.mp h |>.1
    dsimp only
    by_cases hc : pair.code = 0
    · rw [if_pos hc]
      by_cases h1 : jsToUpper (jsTrim pair.value) = "ENDSEC"
      · rw [if_pos h1]; omega
      · rw [if_neg h1]
        by_cases h2 : jsToUpper (jsTrim pair.value) = "TABLE"
        · rw [if_pos h2]
          by_cases h3 : (match pairs.get? (i + 1) with
              | some np => if np.code = 2 then jsToUpper (jsTrim np.value) else ""
              | none => "") = "LAYER"
          · rw [if_pos h3]
            have ha := parseLayerTableGo_ge opts pairs (i + 2) layers
            have hb := parseTablesGo_ge opts pairs
              (parseLayerTableGo opts pairs (i + 2) layers).2
              (parseLayerTableGo opts pairs (i + 2) layers).1
            omega
          · rw [if_neg h3]
            have := parseTablesGo_ge opts pairs (i + 1) layers
            omega
        · rw [if_neg h2]
          have := parseTablesGo_ge opts pairs (i + 1) layers
          omega
    · rw [if_neg hc]
      have := parseTablesGo_ge opts pairs (i + 1) layers
      omega
termination_by pairs.length - i
decreasing_by
  all_goals
    have hlt2 : i < pairs.length := List.get?_eq_some.mp h |>.1
    have := parseLayerTableGo_ge opts pairs (i + 2) layers
    omega

/-- `_skipSection` (DXFLoader.js line 141): scan forward to `ENDSEC`. -/
def skipSectionGo (pairs : List DxfPair) (i : ℕ) : ℕ :=
  match h : pairs.get? i with
  | none => i
  | some pair =>
    if pair.code = 0 ∧ jsToUpper (jsTrim pair.value) = "ENDSEC" then i + 1
    else skipSectionGo pairs (i + 1)
termination_by pairs.length - i
decreasing_by
  have hlt : i < pairs.length := List.get?_eq_some.mp h |>.1
  omega

theorem skipSectionGo_ge (pairs : List DxfPair) (i : ℕ) :
    i ≤ skipSectionGo pairs i := by
  rw [skipSectionGo.eq_def]
  cases h : pairs.get? i with
  | none => simp
  | some pair =>
    have hlt : i < pairs.length := List.get?_eq_some.mp h |>.1
    dsimp only
    by_cases hc : pair.code = 0 ∧ jsToUpper (jsTrim pair.value) = "ENDSEC"
    · rw [if_pos hc]; omega
    · rw [if_neg hc]
      have := skipSectionGo_ge pairs (i + 1)
      omega
termination_by pairs.length - i
decreasing_by
  have hlt2 : i < pairs.length := List.get?_eq_some.mp h |>.1
  omega

/-- `_parseSections` (DXFLoader.js line 121): walk the pair stream, handling
`TABLES` and `ENTITIES` sections and skipping every other section without
interpretation. -/
noncomputable def parseSectionsGo (opts : DxfOptions) (pairs : List DxfPair)
    (i : ℕ) (layers : LayerMap) (objs : List DxfObject) :
    List DxfObject × LayerMap :=
  match h : pairs.get? i with
  | none => (objs, layers)
  | some pair =>
    if pair.code = 0 ∧ jsToUpper (jsTrim pair.value) = "SECTION" then
      let sectionName :=
        match pairs.get? (i + 1) with
        | some np => if np.code = 2 then jsToUpper (jsTrim np.value) else ""
        | none => ""
      if sectionName = "TABLES" then
        let r := parseTablesGo opts pairs (i + 2) layers
        parseSectionsGo opts pairs r.2 r.1 objs
      else if sectionName = "ENTITIES" then
        let r := parseEntitiesGo opts pairs layers (i + 2) objs
        parseSectionsGo opts pairs r.2 layers r.1
      else parseSectionsGo opts pairs (skipSectionGo pairs (i + 2)) layers objs
    else parseSectionsGo opts pairs (i + 1) layers objs
termination_by pairs.length - i
decreasing_by
  all_goals
    have hlt : i < pairs.length := List.get?_eq_some.mp h |>.1
  · have := parseTablesGo_ge opts pairs (i + 2) layers; omega
  · have := parseEntitiesGo_ge opts pairs layers (i + 2) objs; omega
  · have := skipSectionGo_ge pairs (i + 2); omega
  · omega

/-- `parse` (DXFLoader.js line 98).  The `typeof text !== 'string'` rejection
cannot be expressed in the typed embedding (the argument is a string by
type); the two remaining failure conditions are the empty pair sequence and
an output scene graph with no children. -/
noncomputable def dxfParse (opts : DxfOptions) (text : String) :
    Except String (List DxfObject) :=
  let pairs := parsePairs text
  if pairs.isEmpty then
    Except.error "DXFLoader: the provided file does not contain any DXF data."
  else
    let r := parseSectionsGo opts pairs 0 [] []
    if r.1.isEmpty then
      Except.error "DXF file contained no supported entities."
    else Except.ok r.1

/-- C4: a `LINE` entity whose start point equals its end point produces no
object, and a `CIRCLE` with non-positive radius produces no object; in both
cases the entity dispatch loop adds nothing to the scene graph and resumes
at the next entity (the index returned by the entity's field harvest) —
no error is possible, the walkers being total functions. -/
theorem C4_degenerate_drop :
    (∀ (opts : DxfOptions) (pairs : List DxfPair) (index : ℕ) (layers : LayerMap),
      getNumber (collectEntityData pairs index).1 10 0 0 =
        getNumber (collectEntityData pairs index).1 11 0 0 →
      getNumber (collectEntityData pairs index).1 20 0 0 =
        getNumber (collectEntityData pairs index).1 21 0 0 →
      getNumber (collectEntityData pairs index).1 30 0 0 =
        getNumber (collectEntityData pairs index).1 31 0 0 →
      parseLine opts pairs index layers = (none, (collectEntityData pairs index).2)) ∧
    (∀ (opts : DxfOptions) (pairs : List DxfPair) (index : ℕ) (layers : LayerMap),
      getNumber (collectEntityData pairs index).1 40 0 0 ≤ 0 →
      parseCircle opts pairs index layers = (none, (collectEntityData pairs index).2)) ∧
    (∀ (opts : DxfOptions) (pairs : List DxfPair) (layers : LayerMap) (i : ℕ)
        (objs : List DxfObject) (pair : DxfPair),
      pairs.get? i = some pair → pair.code = 0 →
      jsToUpper (jsTrim pair.value) = "LINE" →
      (parseLine opts pairs (i + 1) layers).1 = none →
      parseEntitiesGo opts pairs layers i objs =
        parseEntitiesGo opts pairs layers (parseLine opts pairs (i + 1) layers).2 objs) ∧
    (∀ (opts : DxfOptions) (pairs : List DxfPair) (layers : LayerMap) (i : ℕ)
        (objs : List DxfObject) (pair : DxfPair),
      pairs.get? i = some pair → pair.code = 0 →
      jsToUpper (jsTrim pair.value) = "CIRCLE" →
      (parseCircle opts pairs (i + 1) layers).1 = none →
      parseEntitiesGo opts pairs layers i objs =
        parseEntitiesGo opts pairs layers (parseCircle opts pairs (i + 1) layers).2 objs) := by
  refine ⟨?_, ?_, ?_, ?_⟩
  · intro opts pairs index layers h1 h2 h3
    unfold parseLine
    dsimp only
    rw [if_pos]
    rw [Vec3.ext_iff2]
    refine ⟨?_, ?_, ?_⟩
    · simp only [getNumberR]; exact_mod_cast h1
    · simp only [getNumberR]; exact_mod_cast h2
    · simp only [getNumberR]; exact_mod_cast h3
  · intro opts pairs index layers h
    unfold parseCircle
    dsimp only
    rw [if_pos]
    simp only [getNumberR]
    exact_mod_cast h
  · intro opts pairs layers i objs pair hget hcode hty hobj
    conv_lhs => rw [parseEntitiesGo.eq_def]
    split
    · next h => rw [hget] at h; cases h
    · next pair2 h =>
      rw [hget] at h
      injection h with h
      subst h
      simp [hcode, hty, hobj]
  · intro opts pairs layers i objs pair hget hcode hty hobj
    conv_lhs => rw [parseEntitiesGo.eq_def]
    split
    · next h => rw [hget] at h; cases h
    · next pair2 h =>
      rw [hget] at h
      injection h with h
      subst h
      simp [hcode, hty, hobj]

/-- Witness for C4 at concrete inputs: an empty field table leaves every
coordinate at its fallback `0`, so the `LINE` is degenerate and the `CIRCLE`
radius is non-positive; the dispatch loop over `[0/LINE]` and `[0/CIRCLE]`
adds no object and continues at the parser's returned index. -/
theorem C4_degenerate_drop_witness :
    (parseLine defaultOptions [] 0 [] = (none, (collectEntityData [] 0).2)) ∧
    (parseCircle defaultOptions [] 0 [] = (none, (collectEntityData [] 0).2)) ∧
    (parseEntitiesGo defaultOptions [⟨0, "LINE"⟩] [] 0 [] =
      parseEntitiesGo defaultOptions [⟨0, "LINE"⟩] []
        (parseLine defaultOptions [⟨0, "LINE"⟩] 1 []).2 []) ∧
    (parseEntitiesGo defaultOptions [⟨0, "CIRCLE"⟩] [] 0 [] =
      parseEntitiesGo defaultOptions [⟨0, "CIRCLE"⟩] []
        (parseCircle defaultOptions [⟨0, "CIRCLE"⟩] 1 []).2 []) := by
  have hempty : ∀ c : ℤ, getNumber (collectEntityData ([] : List DxfPair) 0).1 c 0 0 = 0 := by
    intro c
    simp [collectEntityData, collectGo, getNumber, getNumberOpt, dataGet]
  have hempty1 : ∀ c : ℤ, getNumber (collectEntityData [(⟨0, "LINE"⟩ : DxfPair)] 1).1 c 0 0 = 0 := by
    intro c
    simp [collectEntityData, collectGo, getNumber, getNumberOpt, dataGet]
  have hempty2 : ∀ c : ℤ, getNumber (collectEntityData [(⟨0, "CIRCLE"⟩ : DxfPair)] 1).1 c 0 0 = 0 := by
    intro c
    simp [collectEntityData, collectGo, getNumber, getNumberOpt, dataGet]
  refine ⟨?_, ?_, ?_, ?_⟩
  · exact C4_degenerate_drop.1 defaultOptions [] 0 []
      (by rw [hempty, hempty]) (by rw [hempty, hempty]) (by rw [hempty, hempty])
  · exact C4_degenerate_drop.2.1 defaultOptions [] 0 [] (by rw [hempty])
  · refine C4_degenerate_drop.2.2.1 defaultOptions [⟨0, "LINE"⟩] [] 0 []
      ⟨0, "LINE"⟩ (by decide) rfl (by decide) ?_
    have := C4_degenerate_drop.1 defaultOptions [⟨0, "LINE"⟩] 1 []
      (by rw [hempty1, hempty1]) (by rw [hempty1, hempty1]) (by rw [hempty1, hempty1])
    rw [this]
  · refine C4_degenerate_drop.2.2.2 defaultOptions [⟨0, "CIRCLE"⟩] [] 0 []
      ⟨0, "CIRCLE"⟩ (by decide) rfl (by decide) ?_
    have := C4_degenerate_drop.2.1 defaultOptions [⟨0, "CIRCLE"⟩] 1 []
      (by rw [hempty2])
    rw [this]

/-- C5: in the typed embedding the drawing parser's `parse` fails exactly
when the scanned pair sequence is empty or the fully parsed drawing yields
zero scene-graph objects.  (The third source condition — a non-string
argument — is unrepresentable here: the argument is a string by type.)
Per-entity degeneracy and unrecognized sections or entity types cannot
raise: every walker is a total function and the only `error` constructors
sit behind these two tests. -/
theorem C5_parse_error_iff (opts : DxfOptions) (text : String) :
    (∃ msg, dxfParse opts text = Except.error msg) ↔
      (parsePairs text = [] ∨
        (parseSectionsGo opts (parsePairs text) 0 [] []).1 = []) := by
  unfold dxfParse
  dsimp only
  by_cases h1 : (parsePairs text).isEmpty
  · simp_all [List.isEmpty_iff]
  · by_cases h2 : (parseSectionsGo opts (parsePairs text) 0 [] []).1.isEmpty
    · simp_all [List.isEmpty_iff]
    · simp_all [List.isEmpty_iff]

/-! ### Analysis data model (`app.js`), generic over the number type so the
same definitions serve the real-valued mesh pipeline and decidable rational
witnesses. -/

/-- A loop summary (`summarizeLoop`'s return value, app.js line 1017). -/
structure LoopSummary (α : Type*) where
  closed : Bool
  lengthMm : α
  approxDiameterMm : α
  vertexCount : ℕ
  centroid : Option (α × α × α)
  circularity : α
  deriving DecidableEq

/-- Bend statistics (`createEmptyBendStats` / `summarizeBends`).  The
histogram models the JS `Map` as an insertion-ordered association list from
the rounded bucket (an integer multiple of the tolerance) to a count. -/
structure BendStats (α : Type*) where
  totalEdges : ℕ
  candidateEdges : ℕ
  bendCount : ℕ
  sum : α
  min : Option α
  max : Option α
  histogram : List (ℤ × ℕ)
  deriving DecidableEq

/-- Flat-pattern info (`analyzeFlatPattern` result shape). -/
structure FlatPattern (α : Type*) where
  isLikelyFlat : Bool
  dominantPlane : Option String
  largestPatchRatio : Option α
  aspectRatio : Option α
  deriving DecidableEq

/-- One per-mesh analysis (`analyzeGeometry` / `analyzeLineGeometry` return
shape), the element type of `mergeAnalyses`' input. -/
structure MeshAnalysis (α : Type*) where
  loops : List (LoopSummary α)
  totalCutLengthMm : α
  bend : BendStats α
  flatPattern : FlatPattern α
  deriving DecidableEq

/-- The combined analysis (`createEmptyAnalysis` shape, app.js line 518). -/
structure Analysis (α : Type*) where
  loops : List (LoopSummary α)
  holes : List (LoopSummary α)
  openLoops : List (LoopSummary α)
  outerPerimeterMm : Option α
  totalCutLengthMm : α
  bend : BendStats α
  flatPattern : FlatPattern α

/-- An entry of the edge map built by `analyzeGeometry` (app.js line 577):
deduplicated endpoint indices, cached length, incident face list. -/
structure MeshEdge (α : Type*) where
  a : ℕ
  b : ℕ
  length : α
  faces : List ℕ
  deriving DecidableEq

def createEmptyBendStats {α : Type*} [Zero α] : BendStats α :=
  ⟨0, 0, 0, 0, none, none, []⟩

def createEmptyAnalysis {α : Type*} [Zero α] : Analysis α :=
  ⟨[], [], [], none, 0, createEmptyBendStats, ⟨false, none, none, none⟩⟩

/-- `BEND_ANGLE_TOLERANCE_DEG` (app.js line 107). -/
def BEND_ANGLE_TOLERANCE_DEG : ℤ := 3

/-! ### Histogram (JS `Map`) operations -/

/-- `const previous = histogram.has(k) ? histogram.get(k) : 0;
histogram.set(k, previous + 1)` — update in place, or append a new key. -/
def histIncr (k : ℤ) : List (ℤ × ℕ) → List (ℤ × ℕ)
  | [] => [(k, 1)]
  | (a, n) :: t => if a = k then (a, n + 1) :: t else (a, n) :: histIncr k t

/-- `histogram.get(k)` with default 0 (first matching key, as in a JS `Map`,
whose keys are unique). -/
def histGet (h : List (ℤ × ℕ)) (k : ℤ) : ℕ :=
  match h with
  | [] => 0
  | (a, n) :: t => if a = k then n else histGet t k

/-- Total of all stored counts. -/
def histTotal (h : List (ℤ × ℕ)) : ℕ := (h.map Prod.snd).sum

theorem histGet_histIncr (k k' : ℤ) : ∀ h : List (ℤ × ℕ),
    histGet (histIncr k h) k' = histGet h k' + (if k' = k then 1 else 0)
  | [] => by
    by_cases h : k = k'
    · subst h; simp [histIncr, histGet]
    · have h2 : ¬(k' = k) := fun hh => h hh.symm
      simp [histIncr, histGet, h, h2]
  | (a, n) :: t => by
    by_cases hak : a = k
    · subst hak
      by_cases h : a = k'
      · subst h; simp [histIncr, histGet]
      · have h2 : ¬(k' = a) := fun hh => h hh.symm
        simp [histIncr, histGet, h, h2]
    · have ht := histGet_histIncr k k' t
      by_cases h : a = k'
      · subst h
        simp [histIncr, histGet, hak]
      · simp [histIncr, histGet, hak, h, ht]

theorem histTotal_histIncr (k : ℤ) : ∀ h : List (ℤ × ℕ),
    histTotal (histIncr k h) = histTotal h + 1
  | [] => by simp [histIncr, histTotal]
  | (a, n) :: t => by
    by_cases hak : a = k
    · subst hak
      simp [histIncr, histTotal]
      omega
    · have := histTotal_histIncr k t
      simp [histIncr, hak, histTotal] at this ⊢
      omega

/-! ### BendAngleAnalyzer (`summarizeBends`, app.js lines 1074–1117) -/

/-- The dihedral angle between two face normals:
`radToDeg(acos(clamp(dot(normalA, normalB), -1, 1)))`. -/
noncomputable def bendAngleDeg (nA nB : Vec3) : ℝ :=
  radToDeg (Real.arccos (jsClamp (dot3 nA nB) (-1) 1))

/-- The body of `summarizeBends`' `edges.forEach` callback, acting on the
running statistics.  `faceNormals` models the (possibly sparse) JS array
`faceNormals[idx]`; a missing normal skips the edge after the candidate
count, and the `Number.isFinite(angleDeg)` guard is vacuous in the real
model since `acos` of a clamped value is always finite. -/
noncomputable def bendStep (faceNormals : ℕ → Option Vec3)
    (s : BendStats ℝ) (edge : MeshEdge ℝ) : BendStats ℝ :=
  match edge.faces with
  | [f0, f1] =>
    let s1 : BendStats ℝ := { s with candidateEdges := s.candidateEdges + 1 }
    match faceNormals f0, faceNormals f1 with
    | some nA, some nB =>
      let angleDeg := bendAngleDeg nA nB
      if 1 < angleDeg then
        { s1 with
          bendCount := s1.bendCount + 1
          sum := s1.sum + angleDeg
          min := some (match s1.min with
            | none => angleDeg
            | some m => Min.min m angleDeg)
          max := some (match s1.max with
            | none => angleDeg
            | some m => Max.max m angleDeg)
          histogram := histIncr
            (jsRound (angleDeg / (BEND_ANGLE_TOLERANCE_DEG : ℝ)) *
              BEND_ANGLE_TOLERANCE_DEG) s1.histogram }
      else s1
    | _, _ => s1
  | _ => s

/-- `summarizeBends(edges, faceNormals)` over the edge map's values in
insertion order; `totalEdges` is the map's size. -/
noncomputable def summarizeBends (edges : List (MeshEdge ℝ))
    (faceNormals : ℕ → Option Vec3) : BendStats ℝ :=
  edges.foldl (bendStep faceNormals) ⟨edges.length, 0, 0, 0, none, none, []⟩

/-- The list of contributing dihedral angles: one entry per edge with
exactly two incident faces, both normals present, and angle strictly above
the 1° flatness threshold. -/
noncomputable def contribAngles (faceNormals : ℕ → Option Vec3) :
    List (MeshEdge ℝ) → List ℝ
  | [] => []
  | e :: t =>
    match e.faces with
    | [f0, f1] =>
      match faceNormals f0, faceNormals f1 with
      | some nA, some nB =>
        if 1 < bendAngleDeg nA nB then
          bendAngleDeg nA nB :: contribAngles faceNormals t
        else contribAngles faceNormals t
      | _, _ => contribAngles faceNormals t
    | _ => contribAngles faceNormals t

/-- The histogram bucket of a contributing angle: rounded to the nearest
multiple of the 3° tolerance. -/
noncomputable def bendBucket (a : ℝ) : ℤ :=
  jsRound (a / (BEND_ANGLE_TOLERANCE_DEG : ℝ)) * BEND_ANGLE_TOLERANCE_DEG

/-- `foldMinOpt` resumed from an arbitrary running value. -/
noncomputable def foldMinOptFrom (init : Option ℝ) (l : List ℝ) : Option ℝ :=
  l.foldl (fun acc a =>
    some (match acc with | none => a | some m => Min.min m a)) init

/-- `foldMaxOpt` resumed from an arbitrary running value. -/
noncomputable def foldMaxOptFrom (init : Option ℝ) (l : List ℝ) : Option ℝ :=
  l.foldl (fun acc a =>
    some (match acc with | none => a | some m => Max.max m a)) init

theorem foldMinOpt_eq_from (l : List ℝ) : foldMinOpt l = foldMinOptFrom none l := rfl

theorem foldMaxOpt_eq_from (l : List ℝ) : foldMaxOpt l = foldMaxOptFrom none l := rfl

/-- Complete characterization of the `summarizeBends` fold in terms of the
contributing-angle list. -/
theorem bendFold_spec (faceNormals : ℕ → Option Vec3) :
    ∀ (edges : List (MeshEdge ℝ)) (s : BendStats ℝ),
      (edges.foldl (bendStep faceNormals) s).bendCount =
        s.bendCount + (contribAngles faceNormals edges).length ∧
      (edges.foldl (bendStep faceNormals) s).sum =
        s.sum + (contribAngles faceNormals edges).sum ∧
      (edges.foldl (bendStep faceNormals) s).min =
        foldMinOptFrom s.min (contribAngles faceNormals edges) ∧
      (edges.foldl (bendStep faceNormals) s).max =
        foldMaxOptFrom s.max (contribAngles faceNormals edges) ∧
      (edges.foldl (bendStep faceNormals) s).histogram =
        (contribAngles faceNormals edges).foldl
          (fun h a => histIncr (bendBucket a) h) s.histogram ∧
      (edges.foldl (bendStep faceNormals) s).totalEdges = s.totalEdges
  | [] => by intro s; simp [contribAngles, foldMinOptFrom, foldMaxOptFrom]
  | e :: t => by
    intro s
    have ih := bendFold_spec faceNormals t
    simp only [List.foldl_cons, contribAngles]
    match hf : e.faces with
    | [] => simpa [bendStep, hf] using ih s
    | [f0] => simpa [bendStep, hf] using ih s
    | f0 :: f1 :: f2 :: rest => simpa [bendStep, hf] using ih s
    | [f0, f1] =>
      cases hA : faceNormals f0 with
      | none =>
        have ih1 := ih { s with candidateEdges := s.candidateEdges + 1 }
        simpa [bendStep, hf, hA] using ih1
      | some nA =>
        cases hB : faceNormals f1 with
        | none =>
          have ih1 := ih { s with candidateEdges := s.candidateEdges + 1 }
          simpa [bendStep, hf, hA, hB] using ih1
        | some nB =>
          by_cases hangle : 1 < bendAngleDeg nA nB
          · have ih1 := ih
              { s with
                candidateEdges := s.candidateEdges + 1
                bendCount := s.bendCount + 1
                sum := s.sum + bendAngleDeg nA nB
                min := some (match s.min with
                  | none => bendAngleDeg nA nB
                  | some m => Min.min m (bendAngleDeg nA nB))
                max := some (match s.max with
                  | none => bendAngleDeg nA nB
                  | some m => Max.max m (bendAngleDeg nA nB))
                histogram := histIncr
                  (jsRound (bendAngleDeg nA nB / (BEND_ANGLE_TOLERANCE_DEG : ℝ)) *
                    BEND_ANGLE_TOLERANCE_DEG) s.histogram }
            simp only [bendStep, hf, hA, hB, if_pos hangle] at ih1 ⊢
            refine ⟨?_, ?_, ?_, ?_, ?_, ?_⟩ <;>
              simp [ih1.1, ih1.2.1, ih1.2.2.1, ih1.2.2.2.1, ih1.2.2.2.2.1,
                ih1.2.2.2.2.2, foldMinOptFrom, foldMaxOptFrom, bendBucket] <;>
              ring
          · have ih1 := ih { s with candidateEdges := s.candidateEdges + 1 }
            simpa [bendStep, hf, hA, hB, if_neg hangle, hangle] using ih1

theorem foldl_min_le_mem (l : List ℝ) : ∀ m : ℝ, ∀ a ∈ l, l.foldl min m ≤ a := by
  induction l with
  | nil => intro m a ha; simp at ha
  | cons b t ih =>
    intro m a ha
    rcases List.mem_cons.mp ha with h | h
    · subst h
      exact le_trans (by simpa using foldl_min_le_init t (min m a)) (min_le_right m a)
    · simpa using ih (min m b) a h

theorem mul_card_le_sum (c : ℝ) : ∀ l : List ℝ, (∀ x ∈ l, c ≤ x) →
    c * l.length ≤ l.sum := by
  intro l
  induction l with
  | nil => intro _; simp
  | cons a t ih =>
    intro h
    have h1 := h a (List.mem_cons_self a t)
    have h2 := ih (fun x hx => h x (List.mem_cons_of_mem a hx))
    simp only [List.sum_cons, List.length_cons]
    push_cast
    nlinarith [h2]

theorem sum_le_mul_card (c : ℝ) : ∀ l : List ℝ, (∀ x ∈ l, x ≤ c) →
    l.sum ≤ c * l.length := by
  intro l
  induction l with
  | nil => intro _; simp
  | cons a t ih =>
    intro h
    have h1 := h a (List.mem_cons_self a t)
    have h2 := ih (fun x hx => h x (List.mem_cons_of_mem a hx))
    simp only [List.sum_cons, List.length_cons]
    push_cast
    nlinarith [h2]

theorem histGet_bucketFold (k : ℤ) : ∀ (l : List ℝ) (h0 : List (ℤ × ℕ)),
    histGet (l.foldl (fun h a => histIncr (bendBucket a) h) h0) k =
      histGet h0 k + (l.map bendBucket).count k
  | [], h0 => by simp
  | a :: t, h0 => by
    have ih := histGet_bucketFold k t (histIncr (bendBucket a) h0)
    simp only [List.foldl_cons, List.map_cons] at ih ⊢
    rw [ih, histGet_histIncr]
    rw [List.count_cons]
    by_cases hb : bendBucket a = k <;> simp [hb] <;> omega

theorem histTotal_bucketFold : ∀ (l : List ℝ) (h0 : List (ℤ × ℕ)),
    histTotal (l.foldl (fun h a => histIncr (bendBucket a) h) h0) =
      histTotal h0 + l.length
  | [], h0 => by simp
  | a :: t, h0 => by
    have ih := histTotal_bucketFold t (histIncr (bendBucket a) h0)
    simp only [List.foldl_cons, List.length_cons] at ih ⊢
    rw [ih, histTotal_histIncr]
    omega

/-- C2: an edge contributes to the bend count, sum, running min/max and the
histogram exactly when it has two incident faces (with normals present) and
its dihedral angle `radToDeg(acos(clamp(dot(nA, nB), -1, 1)))` is strictly
greater than 1°, and each contributing angle is bucketed by rounding to the
nearest multiple of the 3° tolerance: every returned statistic is the
corresponding aggregate of the contributing-angle list. -/
theorem C2_bend_angles (edges : List (MeshEdge ℝ))
    (faceNormals : ℕ → Option Vec3) :
    (summarizeBends edges faceNormals).bendCount =
      (contribAngles faceNormals edges).length ∧
    (summarizeBends edges faceNormals).sum =
      (contribAngles faceNormals edges).sum ∧
    (summarizeBends edges faceNormals).min =
      foldMinOpt (contribAngles faceNormals edges) ∧
    (summarizeBends edges faceNormals).max =
      foldMaxOpt (contribAngles faceNormals edges) ∧
    ∀ k : ℤ, histGet (summarizeBends edges faceNormals).histogram k =
      ((contribAngles faceNormals edges).map bendBucket).count k := by
  have h := bendFold_spec faceNormals edges ⟨edges.length, 0, 0, 0, none, none, []⟩
  unfold summarizeBends
  refine ⟨by simpa using h.1, by simpa using h.2.1,
    by simpa [foldMinOpt_eq_from] using h.2.2.1,
    by simpa [foldMaxOpt_eq_from] using h.2.2.2.1, ?_⟩
  intro k
  rw [h.2.2.2.2.1, histGet_bucketFold]
  simp [histGet]

/-- C10: the histogram counts of `summarizeBends` sum to `bendCount`, and
when `bendCount` is positive the returned min and max bracket the mean
`sum / bendCount`. -/
theorem C10_bend_stats_invariants (edges : List (MeshEdge ℝ))
    (faceNormals : ℕ → Option Vec3) :
    histTotal (summarizeBends edges faceNormals).histogram =
      (summarizeBends edges faceNormals).bendCount ∧
    (0 < (summarizeBends edges faceNormals).bendCount →
      ∃ m M, (summarizeBends edges faceNormals).min = some m ∧
        (summarizeBends edges faceNormals).max = some M ∧
        m ≤ (summarizeBends edges faceNormals).sum /
          ((summarizeBends edges faceNormals).bendCount : ℝ) ∧
        (summarizeBends edges faceNormals).sum /
          ((summarizeBends edges faceNormals).bendCount : ℝ) ≤ M) := by
  have h := bendFold_spec faceNormals edges ⟨edges.length, 0, 0, 0, none, none, []⟩
  constructor
  · unfold summarizeBends
    rw [h.2.2.2.2.1, histTotal_bucketFold, h.1]
    simp [histTotal]
  · intro hpos
    have hcount : (summarizeBends edges faceNormals).bendCount =
        (contribAngles faceNormals edges).length := by
      unfold summarizeBends; simpa using h.1
    have hsum : (summarizeBends edges faceNormals).sum =
        (contribAngles faceNormals edges).sum := by
      unfold summarizeBends; simpa using h.2.1
    have hmin : (summarizeBends edges faceNormals).min =
        foldMinOpt (contribAngles faceNormals edges) := by
      unfold summarizeBends; simpa [foldMinOpt_eq_from] using h.2.2.1
    have hmax : (summarizeBends edges faceNormals).max =
        foldMaxOpt (contribAngles faceNormals edges) := by
      unfold summarizeBends; simpa [foldMaxOpt_eq_from] using h.2.2.2.1
    rw [hcount] at hpos
    match hA : contribAngles faceNormals edges with
    | [] => rw [hA] at hpos; simp at hpos
    | a :: t =>
      rw [hA] at hcount hsum hmin hmax
      rw [foldMinOpt_cons] at hmin
      rw [foldMaxOpt_cons] at hmax
      set m := t.foldl min a with hm
      set M := t.foldl max a with hM
      have hlen : (0 : ℝ) < ((a :: t).length : ℝ) := by
        simp only [List.length_cons]
        positivity
      have hmle : ∀ x ∈ a :: t, m ≤ x := by
        intro x hx
        rcases List.mem_cons.mp hx with hxx | hxx
        · exact hxx ▸ foldl_min_le_init t a
        · exact foldl_min_le_mem t a x hxx
      have hMge : ∀ x ∈ a :: t, x ≤ M := by
        intro x hx
        rcases List.mem_cons.mp hx with hxx | hxx
        · exact hxx ▸ init_le_foldl_max t a
        · exact mem_le_foldl_max t a x hxx
      have h1 : m * ((a :: t).length : ℝ) ≤ (a :: t).sum :=
        mul_card_le_sum m (a :: t) hmle
      have h2 : (a :: t).sum ≤ M * ((a :: t).length : ℝ) :=
        sum_le_mul_card M (a :: t) hMge
      refine ⟨m, M, hmin, hmax, ?_, ?_⟩
      · rw [hsum, hcount]
        rw [le_div_iff hlen]
        exact h1
      · rw [hsum, hcount]
        rw [div_le_iff hlen]
        linarith [h2]

theorem bendAngle_example :
    bendAngleDeg ⟨1, 0, 0⟩ ⟨0, 1, 0⟩ = 90 := by
  unfold bendAngleDeg dot3 jsClamp radToDeg
  have hdot : (1 : ℝ) * 0 + 0 * 1 + 0 * 0 = 0 := by norm_num
  rw [show ((⟨1, 0, 0⟩ : Vec3).x * (⟨0, 1, 0⟩ : Vec3).x +
      (⟨1, 0, 0⟩ : Vec3).y * (⟨0, 1, 0⟩ : Vec3).y +
      (⟨1, 0, 0⟩ : Vec3).z * (⟨0, 1, 0⟩ : Vec3).z) = 0 by norm_num]
  rw [show Min.min (1 : ℝ) 0 = 0 by norm_num]
  rw [show Max.max (-1 : ℝ) 0 = 0 by norm_num]
  rw [Real.arccos_zero]
  field_simp
  ring

/-- Witness for C10 at a one-edge mesh whose two face normals are
perpendicular: the single candidate edge has a 90° dihedral angle, so
`bendCount = 1 > 0` and the mean is bracketed by min and max. -/
theorem C10_bend_stats_invariants_witness :
    0 < (summarizeBends [⟨0, 1, 0, [0, 1]⟩]
      (fun i => if i = 0 then some ⟨1, 0, 0⟩
        else if i = 1 then some ⟨0, 1, 0⟩ else none)).bendCount ∧
    (∃ m M, (summarizeBends [⟨0, 1, 0, [0, 1]⟩]
        (fun i => if i = 0 then some ⟨1, 0, 0⟩
          else if i = 1 then some ⟨0, 1, 0⟩ else none)).min = some m ∧
      (summarizeBends [⟨0, 1, 0, [0, 1]⟩]
        (fun i => if i = 0 then some ⟨1, 0, 0⟩
          else if i = 1 then some ⟨0, 1, 0⟩ else none)).max = some M ∧
      m ≤ (summarizeBends [⟨0, 1, 0, [0, 1]⟩]
        (fun i => if i = 0 then some ⟨1, 0, 0⟩
          else if i = 1 then some ⟨0, 1, 0⟩ else none)).sum /
        ((summarizeBends [⟨0, 1, 0, [0, 1]⟩]
          (fun i => if i = 0 then some ⟨1, 0, 0⟩
            else if i = 1 then some ⟨0, 1, 0⟩ else none)).bendCount : ℝ) ∧
      (summarizeBends [⟨0, 1, 0, [0, 1]⟩]
        (fun i => if i = 0 then some ⟨1, 0, 0⟩
          else if i = 1 then some ⟨0, 1, 0⟩ else none)).sum /
        ((summarizeBends [⟨0, 1, 0, [0, 1]⟩]
          (fun i => if i = 0 then some ⟨1, 0, 0⟩
            else if i = 1 then some ⟨0, 1, 0⟩ else none)).bendCount : ℝ) ≤ M) := by
  have hcontrib : contribAngles
      (fun i => if i = 0 then some ⟨1, 0, 0⟩
        else if i = 1 then some ⟨0, 1, 0⟩ else none)
      [(⟨0, 1, 0, [0, 1]⟩ : MeshEdge ℝ)] = [90] := by
    rw [contribAngles]
    simp only
    rw [contribAngles]
    norm_num [bendAngle_example]
  have hpos : 0 < (summarizeBends [⟨0, 1, 0, [0, 1]⟩]
      (fun i => if i = 0 then some ⟨1, 0, 0⟩
        else if i = 1 then some ⟨0, 1, 0⟩ else none)).bendCount := by
    unfold summarizeBends
    rw [(bendFold_spec _ _ _).1, hcontrib]
    simp
  exact ⟨hpos, (C10_bend_stats_invariants _ _).2 hpos⟩

/-! ### LoopWalker (app.js lines 757–825) -/

/-- `getEdgeKey(a, b)`: the undirected edge key (sorted pair). -/
def edgeKey (a b : ℕ) : ℕ × ℕ := if a < b then (a, b) else (b, a)

/-- A walked loop: ordered vertex-index sequence plus the closed flag. -/
structure MeshLoop where
  vertices : List ℕ
  closed : Bool
  deriving DecidableEq

/-- `addNeighbor(from, to)` on the adjacency map of JS `Set`s (insertion
ordered, duplicates ignored). -/
def adjAdd (adj : List (ℕ × List ℕ)) (src dst : ℕ) : List (ℕ × List ℕ) :=
  if (List.find? (fun e => e.1 == src) adj).isSome then
    adj.map (fun e => if e.1 == src then
      (e.1, if e.2.contains dst then e.2 else e.2 ++ [dst]) else e)
  else adj ++ [(src, [dst])]

def adjGet (adj : List (ℕ × List ℕ)) (v : ℕ) : List ℕ :=
  ((List.find? (fun e => e.1 == v) adj).map Prod.snd).getD []

/-- The adjacency built from one patch's edge list
(`edgeList.forEach(edge => { addNeighbor(a, b); addNeighbor(b, a); })`). -/
def buildAdjacency {α : Type*} (edgeList : List (MeshEdge α)) :
    List (ℕ × List ℕ) :=
  edgeList.foldl (fun adj e => adjAdd (adjAdd adj e.a e.b) e.b e.a) []

/-- `findNextNeighbor(current, prev)`: the first neighbor that is not the
vertex just left and whose edge is unvisited. -/
def findNextNeighbor (adj : List (ℕ × List ℕ)) (visited : List (ℕ × ℕ))
    (current prev : ℕ) : Option ℕ :=
  (adjGet adj current).find?
    (fun n => n != prev && !(visited.contains (edgeKey current n)))

/-- The walk loop (app.js lines 804–819): push `next`, mark the crossed edge
visited, close when the start vertex is reached, otherwise follow the first
unvisited neighbor; the fuel is the `guard < guardLimit` counter. -/
def walkLoop (adj : List (ℕ × List ℕ)) (visited : List (ℕ × ℕ))
    (loop : List ℕ) (current next : ℕ) :
    ℕ → List ℕ × Bool × List (ℕ × ℕ)
  | 0 => (loop, false, visited)
  | fuel + 1 =>
    let loop1 := loop ++ [next]
    let visited1 := visited ++ [edgeKey current next]
    if next = loop1.headI then (loop1, true, visited1)
    else
      match findNextNeighbor adj visited1 next current with
      | none => (loop1, false, visited1)
      | some cand => walkLoop adj visited1 loop1 next cand fuel

/-- The boundary-loop walker over one patch's edge list (app.js 793–825):
each unvisited edge seeds a walk from `[edge.a]` towards `edge.b`, with the
guard limit `4 × edgeList.length`. -/
def walkAllLoops {α : Type*} (edgeList : List (MeshEdge α)) : List MeshLoop :=
  let adj := buildAdjacency edgeList
  let guardLimit := edgeList.length * 4
  (edgeList.foldl (fun (st : List MeshLoop × List (ℕ × ℕ)) e =>
    if st.2.contains (edgeKey e.a e.b) then st
    else
      let r := walkLoop adj st.2 [e.a] e.a e.b guardLimit
      (st.1 ++ [⟨r.1, r.2.1⟩], r.2.2)) ([], [])).1

theorem walkLoop_closed (adj : List (ℕ × List ℕ)) :
    ∀ (fuel : ℕ) (visited : List (ℕ × ℕ)) (h : ℕ) (t : List ℕ)
      (current next : ℕ),
      (walkLoop adj visited (h :: t) current next fuel).2.1 = true →
      (walkLoop adj visited (h :: t) current next fuel).1.head? =
        (walkLoop adj visited (h :: t) current next fuel).1.getLast?
  | 0 => by
    intro visited h t current next hcl
    simp [walkLoop] at hcl
  | fuel + 1 => by
    intro visited h t current next hcl
    rw [walkLoop] at hcl ⊢
    simp only [List.cons_append, List.headI] at hcl ⊢
    by_cases hnext : next = h
    · rw [if_pos hnext] at hcl ⊢
      rw [← List.cons_append, List.getLast?_concat]
      simp [hnext]
    · rw [if_neg hnext] at hcl ⊢
      cases hfind : findNextNeighbor adj (visited ++ [edgeKey current next])
          next current with
      | none =>
        rw [hfind] at hcl
        simp at hcl
      | some cand =>
        rw [hfind] at hcl
        dsimp only at hcl ⊢
        exact walkLoop_closed adj fuel (visited ++ [edgeKey current next]) h
          (t ++ [next]) next cand hcl

theorem walkFold_closed {α : Type*} (adj : List (ℕ × List ℕ)) (guardLimit : ℕ) :
    ∀ (edges : List (MeshEdge α)) (st : List MeshLoop × List (ℕ × ℕ)),
      (∀ l ∈ st.1, l.closed = true → l.vertices.head? = l.vertices.getLast?) →
      ∀ l ∈ (edges.foldl (fun (st : List MeshLoop × List (ℕ × ℕ)) e =>
          if st.2.contains (edgeKey e.a e.b) then st
          else
            let r := walkLoop adj st.2 [e.a] e.a e.b guardLimit
            (st.1 ++ [⟨r.1, r.2.1⟩], r.2.2)) st).1,
        l.closed = true → l.vertices.head? = l.vertices.getLast?
  | [], st => by
    intro hst l hl
    exact hst l hl
  | e :: rest, st => by
    intro hst
    simp only [List.foldl_cons]
    apply walkFold_closed adj guardLimit rest
    split
    · exact hst
    · intro l hl hcl
      dsimp only at hl
      rcases List.mem_append.mp hl with hmem | hmem
      · exact hst l hmem hcl
      · have hleq : l = ⟨(walkLoop adj st.2 [e.a] e.a e.b guardLimit).1,
            (walkLoop adj st.2 [e.a] e.a e.b guardLimit).2.1⟩ := by
          simpa using hmem
        subst hleq
        simp only at hcl
        exact walkLoop_closed adj guardLimit st.2 e.a [] e.a e.b hcl

/-! ### LoopClassifier (`summarizeLoop`, app.js lines 941–1025) -/

/-- Consecutive pairs of a sequence
(the `for (i; i < list.length - 1; i++)` length loops). -/
def consecPairs {β : Type*} : List β → List (β × β)
  | a :: b :: t => (a, b) :: consecPairs (b :: t)
  | _ => []

/-- All ordered pairs `(points[i], points[j])` with `i < j`
(the O(n²) diameter double loop). -/
def orderedPairs {β : Type*} : List β → List (β × β)
  | [] => []
  | a :: t => (t.map (fun b => (a, b))) ++ orderedPairs t

/-- The arc-length sum: consecutive vertex distances, skipping pairs with a
missing vertex (`if (start && end)`). -/
noncomputable def loopLength (ordered : List ℕ) (vertices : List Vec3) : ℝ :=
  ((consecPairs ordered).map (fun pr =>
    match vertices.get? pr.1, vertices.get? pr.2 with
    | some s, some e => dist3 s e
    | _, _ => 0)).sum

/-- The pairwise maximum squared distance, skipping missing vertices. -/
noncomputable def loopMaxDistSq (points : List ℕ) (vertices : List Vec3) : ℝ :=
  (orderedPairs points).foldl (fun acc pr =>
    match vertices.get? pr.1, vertices.get? pr.2 with
    | some a, some b => Max.max acc (distSq3 a b)
    | _, _ => acc) 0

/-- The centroid accumulator (`centroid.add(a)` over present vertices). -/
noncomputable def loopCentroidSum (points : List ℕ) (vertices : List Vec3) :
    Vec3 :=
  points.foldl (fun acc i =>
    match vertices.get? i with
    | some a => ⟨acc.x + a.x, acc.y + a.y, acc.z + a.z⟩
    | none => acc) ⟨0, 0, 0⟩

/-- `if (points.length) centroid.multiplyScalar(1 / points.length)`. -/
noncomputable def loopCentroid (points : List ℕ) (vertices : List Vec3) :
    Vec3 :=
  let s := loopCentroidSum points vertices
  if points.length ≠ 0 then
    ⟨s.x * (1 / points.length), s.y * (1 / points.length),
     s.z * (1 / points.length)⟩
  else s

/-- The circularity heuristic of `summarizeLoop` (app.js lines 978–1015):
closed loops with ≥4 vertices blend `max(0, 1 - 5·cv)` with the
perimeter-radius ratio; **no** ≥32-vertex floor clamp exists here (unlike
the DXF-entity path). -/
noncomputable def loopCircularity (closed : Bool) (points : List ℕ)
    (vertices : List Vec3) (length : ℝ) (centroid : Vec3) : ℝ :=
  if closed = true ∧ 4 ≤ points.length then
    let perimeterBasedRadius := length / (2 * Real.pi)
    let validPoints := points.countP (fun i => (vertices.get? i).isSome)
    let distSum := points.foldl (fun (acc : ℝ) i =>
      match vertices.get? i with
      | some v => acc + dist3 v centroid
      | none => acc) 0
    if 0 < validPoints then
      let avg := distSum / validPoints
      let varSum := points.foldl (fun (acc : ℝ) i =>
        match vertices.get? i with
        | some v => acc + (dist3 v centroid - avg) ^ 2
        | none => acc) 0
      let variance := varSum / validPoints
      let stdDev := Real.sqrt variance
      let cv := if 0 < avg then stdDev / avg else 1
      let c1 := Max.max 0 (1 - cv * 5)
      let ratio := if 0 < avg then
        Min.min perimeterBasedRadius avg / Max.max perimeterBasedRadius avg
        else 0
      (c1 + ratio) / 2
    else 0
  else 0

/-- `summarizeLoop(loop, vertices)` (app.js line 941).  The two bounds
accumulators of the source are dead code (never returned) and are omitted. -/
noncomputable def summarizeLoop (loop : MeshLoop) (vertices : List Vec3) :
    LoopSummary ℝ :=
  let points := if loop.closed then loop.vertices.dropLast else loop.vertices
  let ordered := loop.vertices
  let length := loopLength ordered vertices
  let approxDiameterMm := Real.sqrt (Max.max (loopMaxDistSq points vertices) 0)
  let centroid := loopCentroid points vertices
  ⟨loop.closed, length, approxDiameterMm, points.length,
   if loop.closed then some (centroid.x, centroid.y, centroid.z) else none,
   loopCircularity loop.closed points vertices length centroid⟩

theorem distSq3_nonneg (a b : Vec3) : 0 ≤ distSq3 a b := by
  unfold distSq3; positivity

theorem dist3_nonneg (a b : Vec3) : 0 ≤ dist3 a b := Real.sqrt_nonneg _

theorem dist3_eq_zero_iff (a b : Vec3) : dist3 a b = 0 ↔ a = b := by
  unfold dist3
  rw [Real.sqrt_eq_zero' ]
  constructor
  · intro hle
    have h0 : distSq3 a b = 0 := le_antisymm hle (distSq3_nonneg a b)
    unfold distSq3 at h0
    rw [Vec3.ext_iff2]
    refine ⟨?_, ?_, ?_⟩ <;> nlinarith [sq_nonneg (a.x - b.x), sq_nonneg (a.y - b.y),
      sq_nonneg (a.z - b.z)]
  · rintro rfl
    unfold distSq3
    simp

theorem sum_zero_of_nonneg : ∀ l : List ℝ, (∀ x ∈ l, 0 ≤ x) → l.sum = 0 →
    ∀ x ∈ l, x = 0 := by
  intro l
  induction l with
  | nil => intro _ _ x hx; simp at hx
  | cons a t ih =>
    intro hpos hsum x hx
    have hta : 0 ≤ a := hpos a (List.mem_cons_self a t)
    have htsum : 0 ≤ t.sum := by
      apply List.sum_nonneg
      intro y hy
      exact hpos y (List.mem_cons_of_mem a hy)
    simp only [List.sum_cons] at hsum
    have ha0 : a = 0 := by linarith
    have ht0 : t.sum = 0 := by linarith
    rcases List.mem_cons.mp hx with hxx | hxx
    · rw [hxx]; exact ha0
    · exact ih (fun y hy => hpos y (List.mem_cons_of_mem a hy)) ht0 x hxx

/-- If every consecutive distance along the index chain is zero and every
index is valid, all vertices along the chain coincide with the head's. -/
theorem chain_const (vertices : List Vec3) : ∀ (t : List ℕ) (a : ℕ),
    (∀ i ∈ a :: t, i < vertices.length) →
    (∀ pr ∈ consecPairs (a :: t),
      (match vertices.get? pr.1, vertices.get? pr.2 with
       | some s, some e => dist3 s e
       | _, _ => (0 : ℝ)) = 0) →
    ∀ i ∈ a :: t, vertices.get? i = vertices.get? a
  | [], a => by
    intro _ _ i hi
    simp at hi
    simp [hi]
  | b :: t, a => by
    intro hval hzero i hi
    have hva : a < vertices.length := hval a (by simp)
    have hvb : b < vertices.length := hval b (by simp)
    have hgva : vertices.get? a = some (vertices.get ⟨a, hva⟩) :=
      List.get?_eq_get hva
    have hgvb : vertices.get? b = some (vertices.get ⟨b, hvb⟩) :=
      List.get?_eq_get hvb
    set va := vertices.get ⟨a, hva⟩ with hva_def
    set vb := vertices.get ⟨b, hvb⟩ with hvb_def
    have hhead := hzero (a, b) (by simp [consecPairs])
    rw [hgva, hgvb] at hhead
    simp only at hhead
    have hab : va = vb := (dist3_eq_zero_iff va vb).mp hhead
    have ih := chain_const vertices t b
      (fun j hj => hval j (List.mem_cons_of_mem a hj))
      (fun pr hpr => hzero pr (by
        simp only [consecPairs, List.mem_cons]
        right
        exact hpr))
    rcases List.mem_cons.mp hi with hia | hitail
    · simp [hia]
    · rw [ih i hitail, hgvb, hgva, hab]

/-- C7: every loop the boundary-loop walker marks `closed = true` has equal
first and last vertex-index entries, and the computed loop length of any
loop whose (valid) vertex indices reach two distinct positions is strictly
positive. -/
theorem C7_loop_invariants :
    (∀ (α : Type) (edgeList : List (MeshEdge α)), ∀ l ∈ walkAllLoops edgeList,
      l.closed = true → l.vertices.head? = l.vertices.getLast?) ∧
    (∀ (loop : MeshLoop) (vertices : List Vec3),
      (∀ i ∈ loop.vertices, i < vertices.length) →
      (∃ i ∈ loop.vertices, ∃ j ∈ loop.vertices,
        vertices.get? i ≠ vertices.get? j) →
      0 < (summarizeLoop loop vertices).lengthMm) := by
  constructor
  · intro α edgeList l hl hcl
    unfold walkAllLoops at hl
    exact walkFold_closed (buildAdjacency edgeList) (edgeList.length * 4)
      edgeList ([], []) (by intro l2 hl2; simp at hl2) l hl hcl
  · intro loop vertices hval hdist
    obtain ⟨i, hi, j, hj, hij⟩ := hdist
    have hlen_eq : (summarizeLoop loop vertices).lengthMm =
        loopLength loop.vertices vertices := rfl
    rw [hlen_eq]
    have hterms : ∀ x ∈ (consecPairs loop.vertices).map (fun pr =>
        match vertices.get? pr.1, vertices.get? pr.2 with
        | some s, some e => dist3 s e
        | _, _ => (0 : ℝ)), 0 ≤ x := by
      intro x hx
      obtain ⟨pr, _, rfl⟩ := List.mem_map.mp hx
      cases vertices.get? pr.1 <;> cases vertices.get? pr.2 <;>
        simp [dist3_nonneg]
    have hnn : 0 ≤ loopLength loop.vertices vertices :=
      List.sum_nonneg hterms
    rcases lt_or_eq_of_le hnn with hlt | heq
    · exact hlt
    · exfalso
      have hzero : ∀ pr ∈ consecPairs loop.vertices,
          (match vertices.get? pr.1, vertices.get? pr.2 with
           | some s, some e => dist3 s e
           | _, _ => (0 : ℝ)) = 0 := by
        intro pr hpr
        exact sum_zero_of_nonneg _ hterms heq.symm _ (List.mem_map_of_mem _ hpr)
      obtain ⟨a, t, hshape⟩ := List.exists_cons_of_ne_nil
        (List.ne_nil_of_mem hi)
      rw [hshape] at hi hj hval hzero
      have hci := chain_const vertices t a hval hzero i hi
      have hcj := chain_const vertices t a hval hzero j hj
      exact hij (hci.trans hcj.symm)

/-- Witness for C7: the walker on a triangle's three boundary edges yields
the closed loop `[0, 1, 2, 0]` (first = last), and a two-point loop over
distinct vertices has strictly positive length. -/
theorem C7_loop_invariants_witness :
    ((⟨[0, 1, 2, 0], true⟩ : MeshLoop) ∈
        walkAllLoops [(⟨0, 1, (0 : ℚ), []⟩ : MeshEdge ℚ),
          ⟨1, 2, 0, []⟩, ⟨2, 0, 0, []⟩] ∧
      (⟨[0, 1, 2, 0], true⟩ : MeshLoop).vertices.head? =
        (⟨[0, 1, 2, 0], true⟩ : MeshLoop).vertices.getLast?) ∧
    ((∀ i ∈ (⟨[0, 1, 0], true⟩ : MeshLoop).vertices,
        i < ([⟨0, 0, 0⟩, ⟨1, 0, 0⟩] : List Vec3).length) ∧
      0 < (summarizeLoop ⟨[0, 1, 0], true⟩
        [⟨0, 0, 0⟩, ⟨1, 0, 0⟩]).lengthMm) := by
  have hmem : (⟨[0, 1, 2, 0], true⟩ : MeshLoop) ∈
      walkAllLoops [(⟨0, 1, (0 : ℚ), []⟩ : MeshEdge ℚ),
        ⟨1, 2, 0, []⟩, ⟨2, 0, 0, []⟩] := by decide
  have hne : ([⟨0, 0, 0⟩, ⟨1, 0, 0⟩] : List Vec3).get? 0 ≠
      ([⟨0, 0, 0⟩, ⟨1, 0, 0⟩] : List Vec3).get? 1 := by
    simp only [List.get?]
    intro hcon
    rw [Option.some.injEq, Vec3.ext_iff2] at hcon
    norm_num at hcon
  exact ⟨⟨hmem, C7_loop_invariants.1 ℚ _ _ hmem rfl⟩,
    ⟨by decide, C7_loop_invariants.2 ⟨[0, 1, 0], true⟩ _ (by decide)
      ⟨0, by simp, 1, by simp, hne⟩⟩⟩

/-! ### Loop deduplication (`dedupeClosedLoops`, app.js lines 1027–1072) -/

/-- `quantize(value) = Math.round(value / 1e-3)`. -/
def dedupeQuantize {α : Type*} [LinearOrderedField α] [FloorRing α]
    (v : α) : ℤ :=
  jsRound (v / (1 / 1000 : α))

/-- The dedupe key: quantized centroid, quantized length, vertex count,
quantized diameter.  (The `Number.isFinite(approxDiameterMm)` test of the
source is vacuously true in this model, so the `'nan'` key never occurs.) -/
def dedupeKey {α : Type*} [LinearOrderedField α] [FloorRing α]
    (s : LoopSummary α) (c : α × α × α) : (ℤ × ℤ × ℤ) × ℤ × ℕ × ℤ :=
  ((dedupeQuantize c.1, dedupeQuantize c.2.1, dedupeQuantize c.2.2),
   dedupeQuantize s.lengthMm, s.vertexCount, dedupeQuantize s.approxDiameterMm)

/-- Merging a duplicate into the stored summary (mutation of `existing`):
centroids and metrics are averaged, vertex counts maxed. -/
def mergeLoopSummary {α : Type*} [LinearOrderedField α]
    (e s : LoopSummary α) : LoopSummary α :=
  { e with
    centroid := match e.centroid, s.centroid with
      | some ce, some cs => some ((ce.1 + cs.1) / 2, (ce.2.1 + cs.2.1) / 2,
          (ce.2.2 + cs.2.2) / 2)
      | _, _ => e.centroid
    lengthMm := (e.lengthMm + s.lengthMm) / 2
    approxDiameterMm := (e.approxDiameterMm + s.approxDiameterMm) / 2
    vertexCount := Max.max e.vertexCount s.vertexCount
    circularity := (e.circularity + s.circularity) / 2 }

/-- One iteration of the dedupe loop.  The `seen` map stores the index of
the stored summary inside `unique`, modelling the JS object aliasing
(mutating `existing` mutates the entry of `unique` in place). -/
def dedupeStep {α : Type*} [LinearOrderedField α] [FloorRing α]
    (st : List (LoopSummary α) × List (((ℤ × ℤ × ℤ) × ℤ × ℕ × ℤ) × ℕ))
    (s : LoopSummary α) :
    List (LoopSummary α) × List (((ℤ × ℤ × ℤ) × ℤ × ℕ × ℤ) × ℕ) :=
  if s.closed = false then (st.1 ++ [s], st.2)
  else
    match s.centroid with
    | none => (st.1 ++ [s], st.2)
    | some c =>
      let key := dedupeKey s c
      match st.2.find? (fun e => decide (e.1 = key)) with
      | none => (st.1 ++ [s], st.2 ++ [(key, st.1.length)])
      | some entry =>
        (List.modify (fun e => mergeLoopSummary e s) entry.2 st.1, st.2)

/-- `dedupeClosedLoops` (app.js line 1027). -/
def dedupeClosedLoops {α : Type*} [LinearOrderedField α] [FloorRing α]
    (loopSummaries : List (LoopSummary α)) : List (LoopSummary α) :=
  if loopSummaries.isEmpty then loopSummaries
  else (loopSummaries.foldl dedupeStep ([], [])).1

/-! ### `mergeAnalyses` (app.js lines 1119–1159) -/

/-- Histogram merging: `combined.set(key, existing + count)`. -/
def histAdd (k : ℤ) (n : ℕ) : List (ℤ × ℕ) → List (ℤ × ℕ)
  | [] => [(k, n)]
  | (a, m) :: t => if a = k then (a, m + n) :: t else (a, m) :: histAdd k n t

/-- The accumulation loop of `mergeAnalyses`: concatenate loops, sum bend
statistics, merge histograms, and let the last flat-looking analysis win. -/
def mergeCombine {α : Type*} [LinearOrderedField α]
    (meshAnalyses : List (MeshAnalysis α)) : Analysis α :=
  meshAnalyses.foldl (fun (c : Analysis α) a =>
    { c with
      loops := c.loops ++ a.loops
      bend := {
        totalEdges := c.bend.totalEdges + a.bend.totalEdges
        candidateEdges := c.bend.candidateEdges + a.bend.candidateEdges
        bendCount := c.bend.bendCount + a.bend.bendCount
        sum := c.bend.sum + a.bend.sum
        min := match a.bend.min with
          | none => c.bend.min
          | some am => some (match c.bend.min with
              | none => am
              | some cm => Min.min cm am)
        max := match a.bend.max with
          | none => c.bend.max
          | some am => some (match c.bend.max with
              | none => am
              | some cm => Max.max cm am)
        histogram := a.bend.histogram.foldl
          (fun h e => histAdd e.1 e.2 h) c.bend.histogram }
      flatPattern := if a.flatPattern.isLikelyFlat then a.flatPattern
        else c.flatPattern }) createEmptyAnalysis

/-- The comparator `(a, b) => b.lengthMm - a.lengthMm` as a stable sort
relation: `a` may precede `b` when `b.lengthMm ≤ a.lengthMm`. -/
def loopLenDescBool {α : Type*} [LinearOrderedField α]
    (x y : LoopSummary α) : Bool :=
  decide (y.lengthMm ≤ x.lengthMm)

/-- `mergeAnalyses` (app.js line 1119). -/
def mergeAnalyses {α : Type*} [LinearOrderedField α] [FloorRing α]
    (meshAnalyses : List (MeshAnalysis α)) : Analysis α :=
  let combined := mergeCombine meshAnalyses
  let loops2 := dedupeClosedLoops combined.loops
  let closedLoops := (loops2.filter (fun l => l.closed)).mergeSort loopLenDescBool
  let openLoops := loops2.filter (fun l => !l.closed)
  { combined with
    loops := loops2
    totalCutLengthMm := (loops2.map (fun l => l.lengthMm)).sum
    outerPerimeterMm := match closedLoops with
      | [] => none
      | top :: _ => some top.lengthMm
    holes := if 1 < closedLoops.length then closedLoops.tail else []
    openLoops := openLoops }

theorem mergeAnalyses_loops {α : Type*} [LinearOrderedField α] [FloorRing α]
    (meshAnalyses : List (MeshAnalysis α)) :
    (mergeAnalyses meshAnalyses).loops =
      dedupeClosedLoops (mergeCombine meshAnalyses).loops := rfl

theorem mergeAnalyses_outer {α : Type*} [LinearOrderedField α] [FloorRing α]
    (meshAnalyses : List (MeshAnalysis α)) :
    (mergeAnalyses meshAnalyses).outerPerimeterMm =
      (match ((dedupeClosedLoops (mergeCombine meshAnalyses).loops).filter
          (fun l => l.closed)).mergeSort loopLenDescBool with
        | [] => none
        | top :: _ => some top.lengthMm) := rfl

theorem mergeAnalyses_holes {α : Type*} [LinearOrderedField α] [FloorRing α]
    (meshAnalyses : List (MeshAnalysis α)) :
    (mergeAnalyses meshAnalyses).holes =
      (if 1 < (((dedupeClosedLoops (mergeCombine meshAnalyses).loops).filter
            (fun l => l.closed)).mergeSort loopLenDescBool).length
        then (((dedupeClosedLoops (mergeCombine meshAnalyses).loops).filter
            (fun l => l.closed)).mergeSort loopLenDescBool).tail
        else []) := rfl

theorem mergeAnalyses_open {α : Type*} [LinearOrderedField α] [FloorRing α]
    (meshAnalyses : List (MeshAnalysis α)) :
    (mergeAnalyses meshAnalyses).openLoops =
      (dedupeClosedLoops (mergeCombine meshAnalyses).loops).filter
        (fun l => !l.closed) := rfl

/-- C1: whenever the merged (deduplicated) loop set has at least one closed
loop, the report's outer perimeter is the longest closed loop's length, the
holes are exactly the remaining closed loops in descending length order,
and the open-chain loops are reported separately. -/
theorem C1_outer_and_holes {α : Type} [LinearOrderedField α] [FloorRing α]
    (analyses : List (MeshAnalysis α))
    (h : (mergeAnalyses analyses).loops.filter (fun l => l.closed) ≠ []) :
    ∃ top : LoopSummary α,
      (mergeAnalyses analyses).outerPerimeterMm = some top.lengthMm ∧
      ((mergeAnalyses analyses).loops.filter (fun l => l.closed)).Perm
        (top :: (mergeAnalyses analyses).holes) ∧
      (∀ l ∈ (mergeAnalyses analyses).loops.filter (fun l => l.closed),
        l.lengthMm ≤ top.lengthMm) ∧
      List.Sorted (fun x y : LoopSummary α => y.lengthMm ≤ x.lengthMm)
        (top :: (mergeAnalyses analyses).holes) ∧
      (mergeAnalyses analyses).openLoops =
        (mergeAnalyses analyses).loops.filter (fun l => !l.closed) := by
  have htrans : ∀ (a b c : LoopSummary α), loopLenDescBool a b = true →
      loopLenDescBool b c = true → loopLenDescBool a c = true := by
    intro a b c hab hbc
    simp only [loopLenDescBool, decide_eq_true_eq] at *
    exact le_trans hbc hab
  have htotal : ∀ (a b : LoopSummary α),
      (loopLenDescBool a b || loopLenDescBool b a) = true := by
    intro a b
    simp only [loopLenDescBool, Bool.or_eq_true, decide_eq_true_eq]
    exact le_total b.lengthMm a.lengthMm
  set C := (dedupeClosedLoops (mergeCombine analyses).loops).filter
    (fun l => l.closed) with hC
  have hCfilter : (mergeAnalyses analyses).loops.filter (fun l => l.closed) = C := by
    rw [mergeAnalyses_loops]
  have hperm : (C.mergeSort loopLenDescBool).Perm C :=
    List.mergeSort_perm C loopLenDescBool
  have hCne : C ≠ [] := by rwa [hCfilter] at h
  have hsne : C.mergeSort loopLenDescBool ≠ [] := by
    intro hnil
    apply hCne
    have := hperm.length_eq
    rw [hnil] at this
    exact List.length_eq_zero.mp this.symm
  obtain ⟨top, rest, hsorted⟩ := List.exists_cons_of_ne_nil hsne
  have hpair : List.Pairwise (fun a b => loopLenDescBool a b = true)
      (C.mergeSort loopLenDescBool) :=
    List.sorted_mergeSort htrans htotal C
  have hholes : (mergeAnalyses analyses).holes = rest := by
    rw [mergeAnalyses_holes, ← hC, hsorted]
    cases rest with
    | nil => simp
    | cons r t => simp
  refine ⟨top, ?_, ?_, ?_, ?_, ?_⟩
  · rw [mergeAnalyses_outer, ← hC, hsorted]
  · rw [hCfilter, hholes]
    exact (hsorted ▸ hperm).symm
  · intro l hl
    rw [hCfilter] at hl
    have hl2 : l ∈ top :: rest := (hsorted ▸ hperm).symm.subset hl
    rcases List.mem_cons.mp hl2 with hh | hh
    · rw [hh]
    · rw [hsorted] at hpair
      have := (List.pairwise_cons.mp hpair).1 l hh
      simpa [loopLenDescBool, decide_eq_true_eq] using this
  · rw [hholes]
    rw [hsorted] at hpair
    have : List.Pairwise
        (fun x y : LoopSummary α => y.lengthMm ≤ x.lengthMm) (top :: rest) :=
      hpair.imp (by
        intro a b hab
        simpa [loopLenDescBool, decide_eq_true_eq] using hab)
    exact this
  · rw [mergeAnalyses_open, mergeAnalyses_loops]

/-- A single mesh analysis carrying three closed loops of lengths 100, 40
and 15 mm (deliberately unsorted, with distinct centroids). -/
def exampleC1Input : MeshAnalysis ℚ :=
  ⟨[⟨true, 15, 2, 4, some (80, 0, 0), 1⟩,
    ⟨true, 100, 10, 4, some (0, 0, 0), 1⟩,
    ⟨true, 40, 4, 4, some (50, 0, 0), 1⟩], 155, createEmptyBendStats,
    ⟨false, none, none, none⟩⟩

theorem exampleC1_dedupe :
    dedupeClosedLoops (mergeCombine [exampleC1Input]).loops =
      [⟨true, 15, 2, 4, some (80, 0, 0), 1⟩,
       ⟨true, 100, 10, 4, some (0, 0, 0), 1⟩,
       ⟨true, 40, 4, 4, some (50, 0, 0), 1⟩] := by
  norm_num [dedupeClosedLoops, dedupeStep, dedupeKey, dedupeQuantize, jsRound,
    mergeCombine, createEmptyAnalysis, createEmptyBendStats, exampleC1Input]

theorem exampleC1_sorted :
    ((dedupeClosedLoops (mergeCombine [exampleC1Input]).loops).filter
        (fun l => l.closed)).mergeSort loopLenDescBool =
      [⟨true, 100, 10, 4, some (0, 0, 0), 1⟩,
       ⟨true, 40, 4, 4, some (50, 0, 0), 1⟩,
       ⟨true, 15, 2, 4, some (80, 0, 0), 1⟩] := by
  rw [exampleC1_dedupe]
  norm_num [List.mergeSort, List.merge, loopLenDescBool]

/-- Witness for C1: with closed loops of lengths 100, 40 and 15, the
classification hypothesis holds, the theorem applies, the outer perimeter
is the 100-length loop and the holes list carries lengths `[40, 15]`. -/
theorem C1_outer_and_holes_witness :
    ((mergeAnalyses [exampleC1Input]).loops.filter (fun l => l.closed) ≠ []) ∧
    (∃ top : LoopSummary ℚ,
      (mergeAnalyses [exampleC1Input]).outerPerimeterMm = some top.lengthMm ∧
      ((mergeAnalyses [exampleC1Input]).loops.filter (fun l => l.closed)).Perm
        (top :: (mergeAnalyses [exampleC1Input]).holes) ∧
      (∀ l ∈ (mergeAnalyses [exampleC1Input]).loops.filter (fun l => l.closed),
        l.lengthMm ≤ top.lengthMm) ∧
      List.Sorted (fun x y : LoopSummary ℚ => y.lengthMm ≤ x.lengthMm)
        (top :: (mergeAnalyses [exampleC1Input]).holes) ∧
      (mergeAnalyses [exampleC1Input]).openLoops =
        (mergeAnalyses [exampleC1Input]).loops.filter (fun l => !l.closed)) ∧
    (mergeAnalyses [exampleC1Input]).outerPerimeterMm = some 100 ∧
    ((mergeAnalyses [exampleC1Input]).holes.map (fun l => l.lengthMm)) =
      [40, 15] := by
  have hne : (mergeAnalyses [exampleC1Input]).loops.filter
      (fun l => l.closed) ≠ [] := by
    rw [mergeAnalyses_loops, exampleC1_dedupe]
    decide
  refine ⟨hne, C1_outer_and_holes [exampleC1Input] hne, ?_, ?_⟩
  · rw [mergeAnalyses_outer, exampleC1_sorted]
  · rw [mergeAnalyses_holes, exampleC1_sorted]
    norm_num

/-! ### The DXF-entity analysis path (`analyzeDxfEntities`, app.js 361–478) -/

noncomputable instance : Inhabited Vec3 := ⟨⟨0, 0, 0⟩⟩

/-- `VERTEX_MERGE_TOLERANCE` (app.js line 106). -/
def VERTEX_MERGE_TOLERANCE : ℚ := 1 / 100000

/-- The per-child polyline length: consecutive point distances. -/
noncomputable def dxfChildLength (points : List Vec3) : ℝ :=
  ((consecPairs points).map (fun pr => dist3 pr.1 pr.2)).sum

/-- The length after the closure check (app.js lines 392–400): a closed
child with more than two points whose endpoints are farther apart than the
merge tolerance gains the closing edge. -/
noncomputable def dxfClosedLength (points : List Vec3) (isClosed : Bool) : ℝ :=
  if isClosed = true ∧ 2 < points.length ∧
      (VERTEX_MERGE_TOLERANCE : ℝ) <
        dist3 points.headI (points.getLastI) then
    dxfChildLength points + dist3 (points.getLastI) points.headI
  else dxfChildLength points

/-- The centroid of the child's points (app.js lines 419–432). -/
noncomputable def dxfCentroid (points : List Vec3) : Vec3 :=
  let s := points.foldl (fun (acc : Vec3) p =>
    ⟨acc.x + p.x, acc.y + p.y, acc.z + p.z⟩) ⟨0, 0, 0⟩
  if points.length ≠ 0 then
    ⟨s.x * (1 / points.length), s.y * (1 / points.length),
     s.z * (1 / points.length)⟩
  else s

/-- The pairwise maximum squared distance (app.js lines 422–427). -/
noncomputable def dxfMaxDistSq (points : List Vec3) : ℝ :=
  (orderedPairs points).foldl
    (fun acc pr => Max.max acc (distSq3 pr.1 pr.2)) 0

/-- The enhanced circularity of `analyzeDxfEntities` (app.js lines 436–467),
including the ≥32-vertex floor clamp
`if (points.length >= 32) circularity = Math.max(circularity, 0.85)`. -/
noncomputable def dxfCircularity (points : List Vec3) (length : ℝ)
    (centroid : Vec3) : ℝ :=
  if 4 ≤ points.length then
    let perimeterBasedRadius := length / (2 * Real.pi)
    let avg := ((points.map (fun p => dist3 p centroid)).sum) / points.length
    let variance :=
      ((points.map (fun p => (dist3 p centroid - avg) ^ 2)).sum) /
        points.length
    let stdDev := Real.sqrt variance
    let cv := if 0 < avg then stdDev / avg else 1
    let c1 := Max.max 0 (1 - cv * 5)
    let ratio := if 0 < avg then
      Min.min perimeterBasedRadius avg / Max.max perimeterBasedRadius avg
      else 0
    let circ := (c1 + ratio) / 2
    if 32 ≤ points.length then Max.max circ 0.85 else circ
  else 0

/-- The per-child summary of `analyzeDxfEntities` (app.js lines 366–478):
`none` when the child contributes nothing (fewer than two points, or a
closed/short child below the 0.01 length threshold); otherwise the open or
closed loop summary that is pushed. -/
noncomputable def dxfEntitySummary (points : List Vec3) (isClosed : Bool) :
    Option (LoopSummary ℝ) :=
  if points.length < 2 then none
  else
    let length := dxfClosedLength points isClosed
    if isClosed = false ∨ length < 1 / 100 then
      if isClosed = false ∧ 1 / 100 < length then
        some ⟨false, length, 0, points.length, none, 0⟩
      else none
    else
      let centroid := dxfCentroid points
      some ⟨true, length,
        Real.sqrt (Max.max (dxfMaxDistSq points) 0), points.length,
        some (centroid.x, centroid.y, centroid.z),
        dxfCircularity points length centroid⟩

/-- C8 (amended): in the DXF-entity analysis path the circularity of every
≥32-point loop is floor-clamped to at least 0.85, and hence every closed
summary that path produces from ≥32 points scores at least 0.85.  (The
mesh-path `summarizeLoop` applies no such clamp — see the counterexample.) -/
theorem C8_dxf_circularity_clamp :
    (∀ (points : List Vec3) (length : ℝ) (centroid : Vec3),
      32 ≤ points.length → 0.85 ≤ dxfCircularity points length centroid) ∧
    (∀ (points : List Vec3) (s : LoopSummary ℝ),
      dxfEntitySummary points true = some s → 32 ≤ s.vertexCount →
      0.85 ≤ s.circularity) := by
  have hclamp : ∀ (points : List Vec3) (length : ℝ) (centroid : Vec3),
      32 ≤ points.length → 0.85 ≤ dxfCircularity points length centroid := by
    intro points length centroid h32
    unfold dxfCircularity
    rw [if_pos (by omega)]
    dsimp only
    rw [if_pos h32]
    exact le_max_right _ _
  refine ⟨hclamp, ?_⟩
  intro points s hsum h32
  unfold dxfEntitySummary at hsum
  by_cases hl2 : points.length < 2
  · rw [if_pos hl2] at hsum
    cases hsum
  · rw [if_neg hl2] at hsum
    dsimp only at hsum
    by_cases hop : (true = false) ∨ dxfClosedLength points true < 1 / 100
    · rw [if_pos hop] at hsum
      by_cases hop2 : (true = false) ∧ 1 / 100 < dxfClosedLength points true
      · exact absurd hop2.1 (by simp)
      · rw [if_neg hop2] at hsum
        cases hsum
    · rw [if_neg hop] at hsum
      have hs := hsum
      injection hs with hs2
      have hvc : s.vertexCount = points.length := by rw [← hs2]
      have hcirc : s.circularity =
          dxfCircularity points (dxfClosedLength points true)
            (dxfCentroid points) := by rw [← hs2]
      rw [hcirc]
      exact hclamp points _ _ (by omega)

/-- A 33-entry closed index loop alternating between two deduplicated
vertices (32 loop vertices plus the closing repeat of the first). -/
def altLoopIdx : List ℕ :=
  [0, 1, 0, 1, 0, 1, 0, 1, 0, 1, 0, 1, 0, 1, 0, 1, 0, 1, 0, 1, 0, 1, 0, 1,
   0, 1, 0, 1, 0, 1, 0, 1, 0]

/-- The two deduplicated vertices the alternating loop visits. -/
noncomputable def altVerts : List Vec3 := [⟨0, 0, 0⟩, ⟨1, 0, 0⟩]

theorem altVerts_get0 : altVerts.get? 0 = some ⟨0, 0, 0⟩ := rfl

theorem altVerts_get1 : altVerts.get? 1 = some ⟨1, 0, 0⟩ := rfl

theorem alt_d01 : dist3 (⟨0, 0, 0⟩ : Vec3) ⟨1, 0, 0⟩ = 1 := by
  unfold dist3 distSq3
  rw [show ((0 : ℝ) - 1) ^ 2 + ((0 : ℝ) - 0) ^ 2 + ((0 : ℝ) - 0) ^ 2 = 1 by
    norm_num]
  exact Real.sqrt_one

theorem alt_d10 : dist3 (⟨1, 0, 0⟩ : Vec3) ⟨0, 0, 0⟩ = 1 := by
  unfold dist3 distSq3
  rw [show ((1 : ℝ) - 0) ^ 2 + ((0 : ℝ) - 0) ^ 2 + ((0 : ℝ) - 0) ^ 2 = 1 by
    norm_num]
  exact Real.sqrt_one

theorem alt_dc0 : dist3 (⟨0, 0, 0⟩ : Vec3) ⟨1 / 2, 0, 0⟩ = 1 / 2 := by
  unfold dist3 distSq3
  rw [show ((0 : ℝ) - 1 / 2) ^ 2 + ((0 : ℝ) - 0) ^ 2 + ((0 : ℝ) - 0) ^ 2 =
      (1 / 2 : ℝ) ^ 2 by norm_num]
  exact Real.sqrt_sq (by norm_num)

theorem alt_dc1 : dist3 (⟨1, 0, 0⟩ : Vec3) ⟨1 / 2, 0, 0⟩ = 1 / 2 := by
  unfold dist3 distSq3
  rw [show ((1 : ℝ) - 1 / 2) ^ 2 + ((0 : ℝ) - 0) ^ 2 + ((0 : ℝ) - 0) ^ 2 =
      (1 / 2 : ℝ) ^ 2 by norm_num]
  exact Real.sqrt_sq (by norm_num)

theorem alt_length : loopLength altLoopIdx altVerts = 32 := by
  simp only [loopLength, altLoopIdx, consecPairs, List.map_cons, List.map_nil,
    altVerts_get0, altVerts_get1, alt_d01, alt_d10, List.sum_cons, List.sum_nil]
  norm_num

theorem alt_points : altLoopIdx.dropLast =
    [0, 1, 0, 1, 0, 1, 0, 1, 0, 1, 0, 1, 0, 1, 0, 1, 0, 1, 0, 1, 0, 1, 0, 1,
     0, 1, 0, 1, 0, 1, 0, 1] := by decide

theorem alt_centroid : loopCentroid altLoopIdx.dropLast altVerts =
    ⟨1 / 2, 0, 0⟩ := by
  have hsum : loopCentroidSum altLoopIdx.dropLast altVerts = ⟨16, 0, 0⟩ := by
    rw [alt_points]
    simp only [loopCentroidSum, List.foldl_cons, List.foldl_nil,
      altVerts_get0, altVerts_get1]
    rw [Vec3.ext_iff2]
    norm_num
  unfold loopCentroid
  rw [hsum, alt_points]
  rw [if_pos (by norm_num)]
  rw [Vec3.ext_iff2]
  norm_num

theorem alt_count : altLoopIdx.dropLast.countP
    (fun i => (altVerts.get? i).isSome) = 32 := by
  rw [alt_points]
  rfl

theorem alt_distSum : altLoopIdx.dropLast.foldl
    (fun (acc : ℝ) i =>
      match altVerts.get? i with
      | some v => acc + dist3 v ⟨1 / 2, 0, 0⟩
      | none => acc) 0 = 16 := by
  rw [alt_points]
  simp only [List.foldl_cons, List.foldl_nil, altVerts_get0, altVerts_get1,
    alt_dc0, alt_dc1]
  norm_num

theorem alt_circularity :
    loopCircularity true altLoopIdx.dropLast altVerts 32 ⟨1 / 2, 0, 0⟩ =
      (1 + Real.pi / 32) / 2 := by
  have hlen4 : 4 ≤ altLoopIdx.dropLast.length := by rw [alt_points]; norm_num
  unfold loopCircularity
  rw [if_pos ⟨rfl, hlen4⟩]
  dsimp only
  rw [alt_count, alt_distSum]
  have hcast : ((32 : ℕ) : ℝ) = 32 := by norm_num
  rw [hcast]
  rw [if_pos (show (0 : ℕ) < 32 by norm_num)]
  have hvar : List.foldl
      (fun (acc : ℝ) i =>
        match altVerts.get? i with
        | some v => acc + (dist3 v ⟨1 / 2, 0, 0⟩ - 16 / 32) ^ 2
        | none => acc) 0 altLoopIdx.dropLast = 0 := by
    rw [alt_points]
    simp only [List.foldl_cons, List.foldl_nil, altVerts_get0, altVerts_get1,
      alt_dc0, alt_dc1]
    norm_num
  rw [hvar]
  have h0 : (0 : ℝ) < 16 / 32 := by norm_num
  rw [if_pos h0, if_pos h0]
  rw [show ((0 : ℝ) / 32) = 0 by norm_num, Real.sqrt_zero]
  rw [show (0 : ℝ) / (16 / 32) = 0 by norm_num]
  rw [show (1 : ℝ) - 0 * 5 = 1 by norm_num]
  rw [show (0 : ℝ) ⊔ 1 = 1 from max_eq_right (by norm_num)]
  have hpi1 : Real.pi < 3.15 := Real.pi_lt_315
  have hpipos := Real.pi_pos
  have hple : (16 : ℝ) / 32 ≤ 32 / (2 * Real.pi) := by
    rw [div_le_div_iff (by norm_num) (by positivity)]
    nlinarith
  rw [min_eq_right hple, max_eq_left hple]
  rw [div_div_eq_mul_div, div_mul_eq_mul_div, div_div]
  field_simp
  ring

/-- C8 counterexample: the mesh-path `summarizeLoop` applies no ≥32-vertex
floor clamp.  The 32-vertex alternating closed loop is closed, has 32
vertices, and scores circularity `(1 + π/32)/2 < 0.85`. -/
theorem C8_mesh_path_no_clamp :
    (summarizeLoop ⟨altLoopIdx, true⟩ altVerts).closed = true ∧
    32 ≤ (summarizeLoop ⟨altLoopIdx, true⟩ altVerts).vertexCount ∧
    (summarizeLoop ⟨altLoopIdx, true⟩ altVerts).circularity < 0.85 := by
  have hvc : (summarizeLoop ⟨altLoopIdx, true⟩ altVerts).vertexCount =
      altLoopIdx.dropLast.length := rfl
  have hcirc : (summarizeLoop ⟨altLoopIdx, true⟩ altVerts).circularity =
      loopCircularity true altLoopIdx.dropLast altVerts
        (loopLength altLoopIdx altVerts)
        (loopCentroid altLoopIdx.dropLast altVerts) := rfl
  refine ⟨rfl, ?_, ?_⟩
  · rw [hvc, alt_points]
    norm_num
  · rw [hcirc, alt_length, alt_centroid, alt_circularity]
    have hpi : Real.pi < 3.15 := Real.pi_lt_315
    have hpipos := Real.pi_pos
    norm_num
    linarith

/-- A concrete 32-point closed polyline child (alternating between two
points) for instantiating the DXF-path circularity floor clamp. -/
noncomputable def dxfPts32 : List Vec3 :=
  [⟨0, 0, 0⟩, ⟨1, 0, 0⟩, ⟨0, 0, 0⟩, ⟨1, 0, 0⟩, ⟨0, 0, 0⟩, ⟨1, 0, 0⟩,
   ⟨0, 0, 0⟩, ⟨1, 0, 0⟩, ⟨0, 0, 0⟩, ⟨1, 0, 0⟩, ⟨0, 0, 0⟩, ⟨1, 0, 0⟩,
   ⟨0, 0, 0⟩, ⟨1, 0, 0⟩, ⟨0, 0, 0⟩, ⟨1, 0, 0⟩, ⟨0, 0, 0⟩, ⟨1, 0, 0⟩,
   ⟨0, 0, 0⟩, ⟨1, 0, 0⟩, ⟨0, 0, 0⟩, ⟨1, 0, 0⟩, ⟨0, 0, 0⟩, ⟨1, 0, 0⟩,
   ⟨0, 0, 0⟩, ⟨1, 0, 0⟩, ⟨0, 0, 0⟩, ⟨1, 0, 0⟩, ⟨0, 0, 0⟩, ⟨1, 0, 0⟩,
   ⟨0, 0, 0⟩, ⟨1, 0, 0⟩]

theorem dxfPts32_len : dxfPts32.length = 32 := rfl

theorem dxfPts32_headI : dxfPts32.headI = ⟨0, 0, 0⟩ := rfl

theorem dxfPts32_lastI : dxfPts32.getLastI = ⟨1, 0, 0⟩ := rfl

theorem dxfPts32_child : dxfChildLength dxfPts32 = 31 := by
  unfold dxfChildLength dxfPts32
  simp only [consecPairs, List.map_cons, List.map_nil, List.sum_cons,
    List.sum_nil, alt_d01, alt_d10]
  norm_num

theorem dxfPts32_closedLen : dxfClosedLength dxfPts32 true = 32 := by
  unfold dxfClosedLength
  rw [if_pos ⟨rfl, by rw [dxfPts32_len]; norm_num,
    by rw [dxfPts32_headI, dxfPts32_lastI, alt_d01]
       norm_num [VERTEX_MERGE_TOLERANCE]⟩]
  rw [dxfPts32_child, dxfPts32_lastI, dxfPts32_headI, alt_d10]
  norm_num

theorem dxfPts32_summary : dxfEntitySummary dxfPts32 true =
    some ⟨true, dxfClosedLength dxfPts32 true,
      Real.sqrt (Max.max (dxfMaxDistSq dxfPts32) 0), dxfPts32.length,
      some ((dxfCentroid dxfPts32).x, (dxfCentroid dxfPts32).y,
        (dxfCentroid dxfPts32).z),
      dxfCircularity dxfPts32 (dxfClosedLength dxfPts32 true)
        (dxfCentroid dxfPts32)⟩ := by
  unfold dxfEntitySummary
  rw [if_neg (by rw [dxfPts32_len]; norm_num)]
  dsimp only
  rw [if_neg (by rw [dxfPts32_closedLen]; norm_num)]

/-- Witness: the DXF-path clamp applied at the concrete 32-point child. -/
theorem C8_dxf_circularity_clamp_witness :
    32 ≤ dxfPts32.length ∧
    0.85 ≤ dxfCircularity dxfPts32 0 ⟨0, 0, 0⟩ ∧
    0.85 ≤ dxfCircularity dxfPts32 (dxfClosedLength dxfPts32 true)
      (dxfCentroid dxfPts32) := by
  have hlen : 32 ≤ dxfPts32.length := by rw [dxfPts32_len]
  refine ⟨hlen, C8_dxf_circularity_clamp.1 dxfPts32 0 ⟨0, 0, 0⟩ hlen, ?_⟩
  exact C8_dxf_circularity_clamp.2 dxfPts32 _ dxfPts32_summary hlen
